import Mathlib

/-!
Verification of the vardhan-wears backend's stock/cart/order core.

The definitions below are a shallow embedding of the repository's
JavaScript source: the Mongoose schemas (`models/Product`-style variant
schema, `models/Cart.js`, `models/Order.js`) become Lean structures, and
the Express route handlers for orders (`POST /api/orders/verify`,
`POST /api/orders/validate-cart`, `PUT /api/orders/:id/cancel`,
`DELETE /api/orders/:id`, `POST /api/orders/:id/repay`) and carts
(`POST /api/cart/add`, `POST /api/cart/merge`, `POST /api/cart/validate-guest`)
become pure functions on an explicit database state.  MongoDB `bulkWrite`
with an `updateOne` filter `{_id, variants: $elemMatch {size, colorName}}`
and positional `$inc` update is modelled as a first-match in-place
adjustment; Mongoose save-time validation of the cart schema
(`quantity: min 1`) is modelled explicitly where a route calls `save()`.
External collaborators (the HMAC-SHA256 hex digest keyed with the gateway
secret, the gateway's payment fetch and order creation) are passed in as
function parameters, exactly at the points the routes call them.
-/

set_option linter.unusedVariables false

namespace VW

/-- A product variant, from `variantSchema`: size, colorName, colorHex and a
stock count.  Stock is an `Int`: the schema declares `min: 0`, but update
operations (`$inc` via `bulkWrite`) bypass that validator, so negative
values are representable — whether they are reachable is exactly what the
stock claims are about. -/
structure Variant where
  size : String
  colorName : String
  colorHex : String
  stock : Int
deriving DecidableEq

/-- A product document: its id, name and embedded variant array. -/
structure Product where
  id : Nat
  name : String
  variants : List Variant
deriving DecidableEq

/-- An order line item, from `orderItemSchema` (display fields that the
stock logic never reads are omitted except `name`, which error paths use). -/
structure OrderItem where
  product : Nat
  name : String
  size : String
  colorName : String
  quantity : Int
deriving DecidableEq

/-- The `paymentDetails` sub-document of an order. -/
structure PaymentDetails where
  razorpayOrderId : Option String
  razorpayPaymentId : Option String
  razorpaySignature : Option String
  paymentMethod : Option String
deriving DecidableEq

/-- An order document, from `orderSchema` (shipping address and price
fields that the claims never touch are omitted). -/
structure Order where
  user : Nat
  orderItems : List OrderItem
  isPaid : Bool
  paidAt : Option Nat
  isCancelled : Bool
  paymentDetails : PaymentDetails
deriving DecidableEq

/-- The database state the order routes read and write: the order
collection (keyed by order id) and the product collection. -/
structure DB where
  orders : List (Nat × Order)
  products : List Product
deriving DecidableEq

/-- `v.size === size && v.colorName === colorName`, the variant match used
by every `variants.find(...)` and by the `$elemMatch` filters. -/
def Variant.matchKey (v : Variant) (size colorName : String) : Bool :=
  v.size == size && v.colorName == colorName

/-- The positional `$` update inside one `updateOne`: add `delta` to the
stock of the first variant matching `(size, colorName)`, leaving the rest
of the array unchanged. -/
def adjustVariants (vs : List Variant) (size colorName : String) (delta : Int) :
    List Variant :=
  match vs with
  | [] => []
  | v :: rest =>
    if v.matchKey size colorName then
      { v with stock := v.stock + delta } :: rest
    else
      v :: adjustVariants rest size colorName delta

/-- One `updateOne` of the stock `bulkWrite`: filter
`{_id: pid, variants: $elemMatch {size, colorName}}`, update
`$inc variants.$.stock by delta`.  Returns the updated product list and
the matched-document count (`0` when the product is gone or the variant
was deleted/renamed, `1` otherwise). -/
def adjustStock (products : List Product) (pid : Nat) (size colorName : String)
    (delta : Int) : List Product × Nat :=
  match products with
  | [] => ([], 0)
  | p :: rest =>
    if p.id = pid ∧ p.variants.any (·.matchKey size colorName) then
      ({ p with variants := adjustVariants p.variants size colorName delta } :: rest, 1)
    else
      let r := adjustStock rest pid size colorName delta
      (p :: r.1, r.2)

/-- `Product.bulkWrite(bulkOps)` for the stock ops built in Verify
(`sign = -1`, `$inc` by `-quantity`) and in order Delete (`sign = 1`,
`$inc` by `quantity`): the updates run in order, independently; the result
also accumulates the total matched count, which the routes discard. -/
def bulkAdjust (products : List Product) (items : List OrderItem) (sign : Int) :
    List Product × Nat :=
  items.foldl
    (fun acc it =>
      let r := adjustStock acc.1 it.product it.size it.colorName (sign * it.quantity)
      (r.1, acc.2 + r.2))
    (products, 0)

/-- The variant an `adjustStock` with this key would hit: the first
matching variant of the first product that satisfies the filter. -/
def firstMatchVariant (products : List Product) (pid : Nat)
    (size colorName : String) : Option Variant :=
  (products.find? (fun p => p.id == pid && p.variants.any (·.matchKey size colorName))).bind
    (fun p => p.variants.find? (·.matchKey size colorName))

/-- `Order.findById(id)` over the order collection. -/
def findOrder (orders : List (Nat × Order)) (oid : Nat) : Option Order :=
  (orders.find? (fun p => p.1 == oid)).map (·.2)

/-- `order.save()` after mutating the document found at `oid`. -/
def setOrder (orders : List (Nat × Order)) (oid : Nat) (o : Order) :
    List (Nat × Order) :=
  orders.map (fun p => if p.1 = oid then (p.1, o) else p)

/-- `Order.deleteOne({_id: oid})`. -/
def removeOrder (orders : List (Nat × Order)) (oid : Nat) : List (Nat × Order) :=
  match orders with
  | [] => []
  | p :: rest => if p.1 = oid then rest else p :: removeOrder rest oid

/-- The request body of `POST /api/orders/verify`. -/
structure VerifyReq where
  razorpay_order_id : String
  razorpay_payment_id : String
  razorpay_signature : String
  order_id : Nat
deriving DecidableEq

/-- The possible responses of `POST /api/orders/verify`.  `alreadyPaid` is
the 200 `'Payment already verified'` response; `success` carries the
`orderId`/`paymentId` fields of the 200 success body. -/
inductive VerifyRes where
  | orderNotFound
  | alreadyPaid
  | invalidSignature
  | fetchError
  | success (orderId : Nat) (paymentId : String)
deriving DecidableEq

/-- `POST /api/orders/verify`.  `hmacHex` is the hex digest of
HMAC-SHA256 keyed with `RAZORPAY_KEY_SECRET` (the route applies it to
`razorpay_order_id + '|' + razorpay_payment_id`); `fetchPayment` is
`razorpay.payments.fetch`, returning the payment method; `now` is
`Date.now()`; `caller` is the authenticated user (`req.user`) supplied by
the `protect` middleware — the handler body never reads it. -/
def verify (hmacHex : String → String) (fetchPayment : String → Option String)
    (now : Nat) (caller : Nat) (db : DB) (req : VerifyReq) : VerifyRes × DB :=
  match findOrder db.orders req.order_id with
  | none => (.orderNotFound, db)
  | some order =>
    if order.isPaid then (.alreadyPaid, db)
    else
      let expectedSignature := hmacHex (req.razorpay_order_id ++ "|" ++ req.razorpay_payment_id)
      if expectedSignature ≠ req.razorpay_signature then (.invalidSignature, db)
      else
        match fetchPayment req.razorpay_payment_id with
        | none => (.fetchError, db)
        | some method =>
          let products := (bulkAdjust db.products order.orderItems (-1)).1
          let order := { order with
            isPaid := true
            paidAt := some now
            paymentDetails :=
              { razorpayOrderId := some req.razorpay_order_id
                razorpayPaymentId := some req.razorpay_payment_id
                razorpaySignature := some req.razorpay_signature
                paymentMethod := some method } }
          (.success req.order_id req.razorpay_payment_id,
           { orders := setOrder db.orders req.order_id order, products := products })

/-- Responses of `PUT /api/orders/:id/cancel`. -/
inductive CancelRes where
  | notFound
  | notAuthorized
  | paidError
  | ok
deriving DecidableEq

/-- `PUT /api/orders/:id/cancel`: owner-only; rejected once paid; on
success sets `isCancelled` and saves.  The product collection is carried
through untouched — the handler never writes it. -/
def cancelOrder (caller : Nat) (db : DB) (oid : Nat) : CancelRes × DB :=
  match findOrder db.orders oid with
  | none => (.notFound, db)
  | some order =>
    if order.user ≠ caller then (.notAuthorized, db)
    else if order.isPaid then (.paidError, db)
    else (.ok, { db with orders := setOrder db.orders oid { order with isCancelled := true } })

/-- Responses of `DELETE /api/orders/:id` (admin). -/
inductive DeleteRes where
  | notFound
  | deleted
deriving DecidableEq

/-- `DELETE /api/orders/:id`: restock every order item's variant
(`$inc` by `+quantity` via `bulkWrite`) when the order is paid and not
cancelled, then remove the order document. -/
def deleteOrder (db : DB) (oid : Nat) : DeleteRes × DB :=
  match findOrder db.orders oid with
  | none => (.notFound, db)
  | some order =>
    let products :=
      if order.isPaid ∧ order.isCancelled = false then
        (bulkAdjust db.products order.orderItems 1).1
      else db.products
    (.deleted, { orders := removeOrder db.orders oid, products := products })

/-- Responses of `POST /api/orders/:id/repay`. -/
inductive RepayRes where
  | notFound
  | notAuthorized
  | alreadyPaid
  | cancelledError
  | productNotFound (name : String)
  | variantNotFound (name : String)
  | outOfStock (name : String)
  | gatewayFail
  | ok (newGatewayOrderId : String)
deriving DecidableEq

/-- The per-item stock re-check loop of the repay route: first failure
wins, `none` means every item passed. -/
def checkItemsStock (products : List Product) (items : List OrderItem) :
    Option RepayRes :=
  match items with
  | [] => none
  | it :: rest =>
    match products.find? (fun p => p.id == it.product) with
    | none => some (.productNotFound it.name)
    | some p =>
      match p.variants.find? (·.matchKey it.size it.colorName) with
      | none => some (.variantNotFound it.name)
      | some v =>
        if v.stock < it.quantity then some (.outOfStock it.name)
        else checkItemsStock products rest

/-- `POST /api/orders/:id/repay`: owner-only, unpaid and not cancelled,
re-checks stock, asks the gateway for a new order (`createOrder`), then
overwrites only `paymentDetails.razorpayOrderId`. -/
def repay (createOrder : Option String) (caller : Nat) (db : DB) (oid : Nat) :
    RepayRes × DB :=
  match findOrder db.orders oid with
  | none => (.notFound, db)
  | some order =>
    if order.user ≠ caller then (.notAuthorized, db)
    else if order.isPaid then (.alreadyPaid, db)
    else if order.isCancelled then (.cancelledError, db)
    else
      match checkItemsStock db.products order.orderItems with
      | some e => (e, db)
      | none =>
        match createOrder with
        | none => (.gatewayFail, db)
        | some gid =>
          let order := { order with paymentDetails :=
            { order.paymentDetails with razorpayOrderId := some gid } }
          (.ok gid, { db with orders := setOrder db.orders oid order })

/-- A cart item to be validated by `POST /api/orders/validate-cart`:
`{ id, quantity, size, colorName }` from the request body.  Quantity is an
`Int` — the endpoint is public and performs no range check on it. -/
structure Pick where
  id : Nat
  size : String
  colorName : String
  quantity : Int
deriving DecidableEq

/-- A validated cart item as returned by `validate-cart`: the input item
spread together with the four annotation fields. -/
structure ValidatedPick where
  item : Pick
  realStock : Int
  hasSufficientStock : Bool
  isLowStock : Bool
  isOutOfStock : Bool
deriving DecidableEq

/-- The stock-map key `` `${p._id}-${v.size}-${v.colorName}` ``. -/
def variantMapKey (pid : Nat) (size colorName : String) : String :=
  toString pid ++ "-" ++ size ++ "-" ++ colorName

/-- The `stockMap` built by `validate-cart`: `forEach` product, `forEach`
variant, `set(key, stock)` — a later entry with the same key overwrites an
earlier one.  Lookup returns the last write for the key. -/
def stockMapLookup (products : List Product) (key : String) : Option Int :=
  products.foldl
    (fun acc p =>
      p.variants.foldl
        (fun acc v =>
          if variantMapKey p.id v.size v.colorName = key then some v.stock else acc)
        acc)
    none

/-- `Product.find({_id: {$in: productIds}})` for the ids referenced by the
picks (deduplication by `new Set` does not change the filter's meaning). -/
def dbFilter (products : List Product) (items : List Pick) : List Product :=
  products.filter (fun p => (items.map (·.id)).contains p.id)

/-- The annotation `validate-cart` computes for one cart item:
`realStock` is the map lookup with `|| 0` defaulting, and the three flags
are computed exactly as in the route body. -/
def classifyCartItem (fromDB : List Product) (ci : Pick) : ValidatedPick :=
  let realStock := (stockMapLookup fromDB (variantMapKey ci.id ci.size ci.colorName)).getD 0
  { item := ci
    realStock := realStock
    hasSufficientStock := decide (ci.quantity ≤ realStock)
    isLowStock := decide (0 < realStock) && decide (realStock ≤ 3)
    isOutOfStock := decide (realStock = 0) }

/-- The `items.map` loop of `validate-cart`, threading the mutable
`canCheckout` flag: it is cleared when an item's `realStock` is `0`, and
when `realStock > 0` but the item lacks sufficient stock. -/
def validateCartAux (fromDB : List Product) : List Pick → Bool → List ValidatedPick × Bool
  | [], canCheckout => ([], canCheckout)
  | ci :: rest, canCheckout =>
    let realStock := (stockMapLookup fromDB (variantMapKey ci.id ci.size ci.colorName)).getD 0
    let hasSufficientStock := decide (ci.quantity ≤ realStock)
    let canCheckout := if realStock = 0 then false else canCheckout
    let canCheckout := if 0 < realStock ∧ hasSufficientStock = false then false else canCheckout
    let r := validateCartAux fromDB rest canCheckout
    (classifyCartItem fromDB ci :: r.1, r.2)

/-- `POST /api/orders/validate-cart`: loads the referenced products,
builds the variant stock map, annotates every item and reports
`canCheckout` (initially `true`). -/
def validateCart (products : List Product) (items : List Pick) :
    List ValidatedPick × Bool :=
  validateCartAux (dbFilter products items) items true

/-- A guest-cart item (`localStorage` shape): `productId`, variant
identity, quantity and the denormalized display fields used on insert. -/
structure GuestItem where
  productId : Nat
  name : String
  price : Int
  image : String
  size : String
  colorName : String
  quantity : Int
deriving DecidableEq

/-- A validated guest-cart item: the input spread plus annotations.  In
the out-of-stock branches the route's object literal carries no
`isLowStock` key; the absent (`undefined`) field is modelled as `false`. -/
structure GuestAnnotated where
  item : GuestItem
  realStock : Int
  isOutOfStock : Bool
  hasSufficientStock : Bool
  isLowStock : Bool
deriving DecidableEq

/-- The body of the `guestCart.map` callback in
`POST /api/cart/validate-guest`: the annotation for one item, paired with
whether this branch assigned `canCheckout = false`.  The missing-field
`throw`/`catch` branch is unreachable here because the embedding's items
are structurally complete records. -/
def classifyGuestF (products : List Product) (it : GuestItem) :
    GuestAnnotated × Bool :=
  match products.find? (fun p => p.id == it.productId) with
  | none => (⟨it, 0, true, false, false⟩, true)
  | some p =>
    match p.variants.find? (·.matchKey it.size it.colorName) with
    | none => (⟨it, 0, true, false, false⟩, true)
    | some v =>
      if v.stock = 0 then (⟨it, 0, true, false, false⟩, true)
      else if v.stock < it.quantity then
        (⟨it, v.stock, false, false, decide (v.stock ≤ 3)⟩, true)
      else
        (⟨it, v.stock, false, true, decide (v.stock ≤ 3)⟩, false)

/-- `POST /api/cart/validate-guest`: annotates every guest item; the
shared `canCheckout` starts `true` and is cleared by any flagged item. -/
def validateGuest (products : List Product) (guestCart : List GuestItem) :
    List GuestAnnotated × Bool :=
  let pairs := guestCart.map (classifyGuestF products)
  (pairs.map (·.1), pairs.foldl (fun cc pr => if pr.2 then false else cc) true)

/-- The Stock Validator classification rules as the spec states them:
`realStock = 0` forces out-of-stock and insufficient; `0 < realStock <
quantity` is insufficient but not out-of-stock with `isLowStock =
realStock ≤ 3`; `realStock ≥ quantity` is sufficient with the same
low-stock rule. -/
def picksRulesOK (quantity realStock : Int)
    (isOutOfStock hasSufficientStock isLowStock : Bool) : Prop :=
  (realStock = 0 → isOutOfStock = true ∧ hasSufficientStock = false)
  ∧ (0 < realStock → realStock < quantity →
      isOutOfStock = false ∧ hasSufficientStock = false ∧
        isLowStock = decide (realStock ≤ 3))
  ∧ (quantity ≤ realStock →
      hasSufficientStock = true ∧ isLowStock = decide (realStock ≤ 3))

/-- A persisted cart line, from `cartItemSchema` in `models/Cart.js`. -/
structure CartItem where
  product : Nat
  name : String
  price : Int
  image : String
  size : String
  colorName : String
  quantity : Int
deriving DecidableEq

/-- The request body of `POST /api/cart/add`. -/
structure AddReq where
  productId : Nat
  name : String
  price : Int
  image : String
  size : String
  colorName : String
  quantity : Int
deriving DecidableEq

/-- The truthiness guard
`!productId || !size || !colorName || !quantity || !name || !price || !image`:
for numbers, `0` is falsy; for strings, the empty string is falsy (the
`productId` string's falsiness maps to id `0`). -/
def addMissingFields (req : AddReq) : Bool :=
  req.productId == 0 || req.size == "" || req.colorName == "" ||
  req.quantity == 0 || req.name == "" || req.price == 0 || req.image == ""

/-- Responses of `POST /api/cart/add`.  `saveError` is the 500 produced
when `cart.save()` fails schema validation (`quantity: min 1`). -/
inductive AddRes where
  | missingFields
  | productNotFound
  | variantNotFound
  | insufficient
  | saveError
  | ok
deriving DecidableEq

/-- The `findIndex` predicate of the add route: the line matching the
`(product, size, colorName)` tuple of the request. -/
def cartTupleMatch (req : AddReq) (it : CartItem) : Bool :=
  it.product == req.productId && it.size == req.size && it.colorName == req.colorName

/-- The identity of a cart line: its `(product, size, colorName)` tuple. -/
def tupleOf (it : CartItem) : Nat × String × String :=
  (it.product, it.size, it.colorName)

/-- `Array.prototype.findIndex`. -/
def findIdxA (p : α → Bool) : List α → Option Nat
  | [] => none
  | x :: xs => if p x then some 0 else (findIdxA p xs).map (· + 1)

/-- Overwrite the quantity of the line at index `i`. -/
def setQtyAt : List CartItem → Nat → Int → List CartItem
  | [], _, _ => []
  | it :: rest, 0, q => { it with quantity := q } :: rest
  | it :: rest, i + 1, q => it :: setQtyAt rest i q

/-- The cart line `cart.items.push({...})` appends in the add route. -/
def mkCartItem (req : AddReq) (quantity : Int) : CartItem :=
  ⟨req.productId, req.name, req.price, req.image, req.size, req.colorName, quantity⟩

/-- Mongoose document validation run by `cart.save()`: the cart item
schema declares `quantity: {min: 1}`, so saving fails iff some line's
quantity is below `1`. -/
def cartSaveFails (items : List CartItem) : Bool :=
  items.any (fun it => it.quantity < 1)

/-- `POST /api/cart/add`: missing-field guard, product and variant
lookup, merge with the first line matching the `(product, size, colorName)`
tuple, stock ceiling check on the merged quantity, then save.  On any
rejection the stored cart is unchanged. -/
def cartAdd (products : List Product) (cart : List CartItem) (req : AddReq) :
    AddRes × List CartItem :=
  if addMissingFields req then (.missingFields, cart)
  else
    match products.find? (fun p => p.id == req.productId) with
    | none => (.productNotFound, cart)
    | some p =>
      match p.variants.find? (·.matchKey req.size req.colorName) with
      | none => (.variantNotFound, cart)
      | some v =>
        let existingItemIndex := findIdxA (cartTupleMatch req) cart
        let newQuantity :=
          match existingItemIndex with
          | some i => ((cart.get? i).map (·.quantity)).getD 0 + req.quantity
          | none => req.quantity
        if v.stock < newQuantity then (.insufficient, cart)
        else
          let items :=
            match existingItemIndex with
            | some i => setQtyAt cart i newQuantity
            | none => cart ++ [mkCartItem req newQuantity]
          if cartSaveFails items then (.saveError, cart) else (.ok, items)

/-- The merge key `` `${product}-${size}-${colorName}` `` used both for the
`existingItems` set and the per-guest-item lookup. -/
def mergeKey (pid : Nat) (size colorName : String) : String :=
  toString pid ++ "-" ++ size ++ "-" ++ colorName

/-- The body of the `for (const guestItem of guestCart)` loop in
`POST /api/cart/merge`: skip on missing fields, missing product, missing
variant or zero stock; merge-and-clamp when the key is in the initial
`existingItems` set; otherwise insert with the quantity clamped to
stock. -/
def mergeStep (products : List Product) (initialKeys : List String)
    (cart : List CartItem) (g : GuestItem) : List CartItem :=
  if g.productId == 0 || g.size == "" || g.colorName == "" then cart
  else
    match products.find? (fun p => p.id == g.productId) with
    | none => cart
    | some p =>
      match p.variants.find? (·.matchKey g.size g.colorName) with
      | none => cart
      | some v =>
        if v.stock = 0 then cart
        else
          let itemKey := mergeKey g.productId g.size g.colorName
          if initialKeys.contains itemKey then
            match findIdxA
                (fun it => mergeKey it.product it.size it.colorName == itemKey) cart with
            | none => cart
            | some i =>
              let newQuantity := ((cart.get? i).map (·.quantity)).getD 0 + g.quantity
              let newQuantity := if v.stock < newQuantity then v.stock else newQuantity
              setQtyAt cart i newQuantity
          else
            let newQuantity := if v.stock < g.quantity then v.stock else g.quantity
            cart ++ [⟨g.productId, g.name, g.price, g.image, g.size, g.colorName, newQuantity⟩]

/-- The in-memory result of `POST /api/cart/merge` before `cart.save()`:
the `existingItems` key set is computed once from the stored cart, then
the loop folds over the guest items. -/
def mergeCart (products : List Product) (cart : List CartItem)
    (guestCart : List GuestItem) : List CartItem :=
  let initialKeys := cart.map (fun it => mergeKey it.product it.size it.colorName)
  guestCart.foldl (mergeStep products initialKeys) cart

/-- `POST /api/cart/merge` including the final `cart.save()`: `none` is
the 500 response when schema validation (`quantity: min 1`) rejects the
merged document, in which case the stored cart is unchanged. -/
def mergeCartSave (products : List Product) (cart : List CartItem)
    (guestCart : List GuestItem) : Option (List CartItem) :=
  let items := mergeCart products cart guestCart
  if cartSaveFails items then none else some items

/-! ### Concrete demonstration data used by witnesses and counterexamples -/

/-- A stand-in for the keyed HMAC-SHA256 hex digest: every message signs
to `"SIG"`. -/
def demoHmac : String → String := fun _ => "SIG"

/-- A gateway payment fetch that always reports a card payment. -/
def demoFetch : String → Option String := fun _ => some "card"

/-- An unpaid order by user 1 for two units of product 10, size M, Black. -/
def demoOrder : Order :=
  ⟨1, [⟨10, "Tee", "M", "Black", 2⟩], false, none, false, ⟨some "rzp_o", none, none, none⟩⟩

/-- Product 10 with a single variant holding stock 1 — less than the two
units `demoOrder` asks for. -/
def demoDB : DB := ⟨[(1, demoOrder)], [⟨10, "Tee", [⟨"M", "Black", "#000", 1⟩]⟩]⟩

/-- A verify request for `demoOrder` whose signature matches `demoHmac`. -/
def demoReq : VerifyReq := ⟨"rzp_o", "pay_1", "SIG", 1⟩

/-- The database state after the first (successful) verify of `demoReq`. -/
def demoDB2 : DB := (verify demoHmac demoFetch 0 7 demoDB demoReq).2

/-- Like `demoDB`, but with enough stock (5) for `demoOrder`'s two units. -/
def safeDB : DB := ⟨[(1, demoOrder)], [⟨10, "Tee", [⟨"M", "Black", "#000", 5⟩]⟩]⟩

/-- An unpaid two-item order, used to observe a partially matching
decrement batch. -/
def twoItemOrder : Order :=
  ⟨1, [⟨10, "Tee", "M", "Black", 1⟩, ⟨11, "Cap", "L", "Red", 1⟩],
   false, none, false, ⟨some "rzp_o", none, none, none⟩⟩

/-- A database where both of `twoItemOrder`'s variants exist. -/
def dbBothVariants : DB :=
  ⟨[(1, twoItemOrder)],
   [⟨10, "Tee", [⟨"M", "Black", "#000", 5⟩]⟩, ⟨11, "Cap", [⟨"L", "Red", "#f00", 5⟩]⟩]⟩

/-- The same database with product 10 deleted, so the first decrement of a
Verify of `twoItemOrder` matches zero rows. -/
def dbMissingVariant : DB :=
  ⟨[(1, twoItemOrder)], [⟨11, "Cap", [⟨"L", "Red", "#f00", 5⟩]⟩]⟩

/-- Every variant of every product has nonnegative stock — the data-model
invariant claimed by the spec (`variantSchema`'s `min: 0`). -/
def ledgerNonneg (products : List Product) : Prop :=
  ∀ p ∈ products, ∀ v ∈ p.variants, 0 ≤ v.stock

/-- Step-wise sufficiency of a decrement batch: each item's quantity is at
most the stock, at application time, of the variant its `updateOne` would
hit (vacuously true for an item whose variant no longer matches). -/
def decSafeB : List Product → List OrderItem → Bool
  | _, [] => true
  | L, it :: rest =>
    (match firstMatchVariant L it.product it.size it.colorName with
     | none => true
     | some v => decide (it.quantity ≤ v.stock))
    && decSafeB (adjustStock L it.product it.size it.colorName ((-1) * it.quantity)).1 rest

/-- The ledger component of the bulk update, as a plain fold. -/
def bulkLedger (products : List Product) (items : List OrderItem) (sign : Int) :
    List Product :=
  items.foldl
    (fun acc it => (adjustStock acc it.product it.size it.colorName (sign * it.quantity)).1)
    products

/-! ### Helper lemmas -/

theorem findOrder_nil (oid : Nat) : findOrder [] oid = none := rfl

theorem find?_cons_eq {α : Type} (p : α → Bool) (a : α) (l : List α) :
    List.find? p (a :: l) = if p a then some a else List.find? p l := by
  by_cases hpa : p a
  · rw [if_pos hpa]
    exact List.find?_cons_of_pos _ hpa
  · rw [if_neg hpa]
    exact List.find?_cons_of_neg _ hpa

theorem findOrder_setOrder (orders : List (Nat × Order)) (oid : Nat) (o o2 : Order)
    (h : findOrder orders oid = some o) :
    findOrder (setOrder orders oid o2) oid = some o2 := by
  induction orders with
  | nil => simp [findOrder] at h
  | cons p rest ih =>
    by_cases hp : p.1 = oid
    · simp [findOrder, setOrder, List.find?_cons_of_pos, hp]
    · have hne : (p.1 == oid) = false := by simp [hp]
      simp only [findOrder, List.find?_cons_of_neg, hne, Bool.not_eq_true] at h
      simpa [findOrder, setOrder, List.find?_cons_of_neg, hne, hp] using ih h

theorem adjustVariants_nonneg (vs : List Variant) (size colorName : String)
    (delta : Int) (hnn : ∀ v ∈ vs, 0 ≤ v.stock)
    (hdelta : ∀ v, vs.find? (·.matchKey size colorName) = some v → 0 ≤ v.stock + delta) :
    ∀ v ∈ adjustVariants vs size colorName delta, 0 ≤ v.stock := by
  induction vs with
  | nil => simp [adjustVariants]
  | cons w ws ih =>
    by_cases hw : w.matchKey size colorName
    · simp only [adjustVariants, hw, if_true]
      intro v hv
      rcases List.mem_cons.1 hv with h | h
      · subst h
        exact hdelta w (by rw [find?_cons_eq (fun x => Variant.matchKey x size colorName),
          if_pos hw])
      · exact hnn v (List.mem_cons_of_mem _ h)
    · have hw' : w.matchKey size colorName = false := by simpa using hw
      simp only [adjustVariants, hw', Bool.false_eq_true, if_false]
      intro v hv
      rcases List.mem_cons.1 hv with h | h
      · subst h
        exact hnn v (List.mem_cons_self _ _)
      · refine ih (fun u hu => hnn u (List.mem_cons_of_mem _ hu)) ?_ v h
        intro u hu
        refine hdelta u ?_
        rw [find?_cons_eq (fun x => Variant.matchKey x size colorName), if_neg hw]
        exact hu

theorem adjustStock_nonneg (products : List Product) (pid : Nat)
    (size colorName : String) (delta : Int)
    (hnn : ledgerNonneg products)
    (hdelta : ∀ v, firstMatchVariant products pid size colorName = some v →
      0 ≤ v.stock + delta) :
    ledgerNonneg (adjustStock products pid size colorName delta).1 := by
  induction products with
  | nil => simp [adjustStock, ledgerNonneg]
  | cons p rest ih =>
    by_cases hp : (p.id == pid && p.variants.any (·.matchKey size colorName)) = true
    · have hcond : p.id = pid ∧ p.variants.any (·.matchKey size colorName) = true := by
        simpa [Bool.and_eq_true, beq_iff_eq] using hp
      unfold adjustStock
      rw [if_pos hcond]
      intro q hq
      rcases List.mem_cons.1 hq with h | h
      · subst h
        intro v hv
        refine adjustVariants_nonneg p.variants size colorName delta
          (hnn p (List.mem_cons_self _ _)) ?_ v hv
        intro u hu
        refine hdelta u ?_
        unfold firstMatchVariant
        rw [find?_cons_eq (fun pr : Product =>
          pr.id == pid && pr.variants.any (·.matchKey size colorName)), if_pos hp]
        simpa using hu
      · exact hnn q (List.mem_cons_of_mem _ h)
    · have hcond : ¬(p.id = pid ∧ p.variants.any (·.matchKey size colorName) = true) := by
        intro hc
        exact hp (by simp [Bool.and_eq_true, beq_iff_eq, hc.1, hc.2])
      unfold adjustStock
      rw [if_neg hcond]
      intro q hq
      rcases List.mem_cons.1 hq with h | h
      · subst h
        exact hnn q (List.mem_cons_self _ _)
      · refine ih (fun u hu => hnn u (List.mem_cons_of_mem _ hu)) ?_ q h
        intro u hu
        refine hdelta u ?_
        unfold firstMatchVariant
        rw [find?_cons_eq (fun pr : Product =>
          pr.id == pid && pr.variants.any (·.matchKey size colorName)), if_neg hp]
        exact hu

theorem firstMatchVariant_nonneg {products : List Product} {pid : Nat}
    {size colorName : String} {v : Variant}
    (hnn : ledgerNonneg products)
    (h : firstMatchVariant products pid size colorName = some v) : 0 ≤ v.stock := by
  unfold firstMatchVariant at h
  cases hfind : products.find?
      (fun p => p.id == pid && p.variants.any (·.matchKey size colorName)) with
  | none => rw [hfind] at h; simp at h
  | some p =>
    rw [hfind] at h
    simp only [Option.some_bind] at h
    exact hnn p (List.mem_of_find?_eq_some hfind) v (List.mem_of_find?_eq_some h)

theorem bulkAdjust_fst (sign : Int) :
    ∀ (items : List OrderItem) (products : List Product) (n : Nat),
    (items.foldl
      (fun acc it =>
        let r := adjustStock acc.1 it.product it.size it.colorName (sign * it.quantity)
        (r.1, acc.2 + r.2))
      (products, n)).1 = bulkLedger products items sign := by
  intro items
  induction items with
  | nil => intro products n; rfl
  | cons it rest ih =>
    intro products n
    simp only [List.foldl_cons, bulkLedger]
    exact ih _ _

theorem bulkLedger_dec_nonneg :
    ∀ (items : List OrderItem) (products : List Product),
    ledgerNonneg products → decSafeB products items = true →
    ledgerNonneg (bulkLedger products items (-1)) := by
  intro items
  induction items with
  | nil => intro products hnn _; exact hnn
  | cons it rest ih =>
    intro products hnn hsafe
    simp only [decSafeB, Bool.and_eq_true] at hsafe
    simp only [bulkLedger, List.foldl_cons]
    refine ih _ ?_ hsafe.2
    refine adjustStock_nonneg _ _ _ _ _ hnn ?_
    intro v hv
    rw [hv] at hsafe
    have : it.quantity ≤ v.stock := by simpa using hsafe.1
    omega

theorem bulkLedger_inc_nonneg :
    ∀ (items : List OrderItem) (products : List Product),
    ledgerNonneg products → (∀ it ∈ items, 0 ≤ it.quantity) →
    ledgerNonneg (bulkLedger products items 1) := by
  intro items
  induction items with
  | nil => intro products hnn _; exact hnn
  | cons it rest ih =>
    intro products hnn hq
    simp only [bulkLedger, List.foldl_cons]
    refine ih _ ?_ (fun u hu => hq u (List.mem_cons_of_mem _ hu))
    refine adjustStock_nonneg _ _ _ _ _ hnn ?_
    intro v hv
    have h1 := firstMatchVariant_nonneg hnn hv
    have h2 := hq it (List.mem_cons_self _ _)
    omega

theorem stockMapLookup_step_nonneg (pid : Nat) (key : String) :
    ∀ (vs : List Variant), (∀ v ∈ vs, 0 ≤ v.stock) →
    ∀ (acc : Option Int), (∀ s, acc = some s → 0 ≤ s) →
    ∀ s, (vs.foldl
      (fun acc v => if variantMapKey pid v.size v.colorName = key then some v.stock else acc)
      acc) = some s → 0 ≤ s := by
  intro vs
  induction vs with
  | nil => intro _ acc hacc s h; exact hacc s h
  | cons v rest ih =>
    intro hnn acc hacc s h
    simp only [List.foldl_cons] at h
    refine ih (fun u hu => hnn u (List.mem_cons_of_mem _ hu)) _ ?_ s h
    intro t ht
    by_cases hk : variantMapKey pid v.size v.colorName = key
    · rw [if_pos hk] at ht
      cases ht
      exact hnn v (List.mem_cons_self _ _)
    · rw [if_neg hk] at ht
      exact hacc t ht

theorem stockMapLookup_nonneg (key : String) :
    ∀ (products : List Product), ledgerNonneg products →
    ∀ s, stockMapLookup products key = some s → 0 ≤ s := by
  have main : ∀ (products : List Product), ledgerNonneg products →
      ∀ (acc : Option Int), (∀ s, acc = some s → 0 ≤ s) →
      ∀ s, (products.foldl
        (fun acc p => p.variants.foldl
          (fun acc v => if variantMapKey p.id v.size v.colorName = key then some v.stock else acc)
          acc) acc) = some s → 0 ≤ s := by
    intro products
    induction products with
    | nil => intro _ acc hacc s h; exact hacc s h
    | cons p rest ih =>
      intro hnn acc hacc s h
      simp only [List.foldl_cons] at h
      refine ih (fun u hu => hnn u (List.mem_cons_of_mem _ hu)) _ ?_ s h
      exact stockMapLookup_step_nonneg p.id key p.variants
        (hnn p (List.mem_cons_self _ _)) acc hacc
  intro products hnn s h
  exact main products hnn none (by simp) s h

theorem ledgerNonneg_dbFilter {products : List Product} (items : List Pick)
    (hnn : ledgerNonneg products) : ledgerNonneg (dbFilter products items) := by
  intro p hp
  exact hnn p (List.mem_of_mem_filter hp)

theorem validateCartAux_fst (fromDB : List Product) :
    ∀ (items : List Pick) (cc : Bool),
    (validateCartAux fromDB items cc).1 = items.map (classifyCartItem fromDB) := by
  intro items
  induction items with
  | nil => intro cc; rfl
  | cons ci rest ih =>
    intro cc
    simp only [validateCartAux, List.map_cons]
    rw [ih]

theorem validateCartAux_false (fromDB : List Product) :
    ∀ (items : List Pick), (validateCartAux fromDB items false).2 = false := by
  intro items
  induction items with
  | nil => rfl
  | cons ci rest ih =>
    simp only [validateCartAux]
    by_cases h0 : (stockMapLookup fromDB
        (variantMapKey ci.id ci.size ci.colorName)).getD 0 = 0
    · simpa [h0] using ih
    · by_cases h1 : 0 < (stockMapLookup fromDB
          (variantMapKey ci.id ci.size ci.colorName)).getD 0 ∧
          decide (ci.quantity ≤ (stockMapLookup fromDB
            (variantMapKey ci.id ci.size ci.colorName)).getD 0) = false
      · simpa [h0, h1] using ih
      · simpa [h0, h1] using ih

theorem validateCartAux_snd (fromDB : List Product)
    (hnn : ∀ key s, stockMapLookup fromDB key = some s → 0 ≤ s) :
    ∀ (items : List Pick), (∀ ci ∈ items, 1 ≤ ci.quantity) →
    ∀ (cc : Bool),
    (validateCartAux fromDB items cc).2 =
      (cc && (items.map (classifyCartItem fromDB)).all (·.hasSufficientStock)) := by
  intro items
  induction items with
  | nil => intro _ cc; simp [validateCartAux]
  | cons ci rest ih =>
    intro hq cc
    have hq1 : 1 ≤ ci.quantity := hq ci (List.mem_cons_self _ _)
    have hrest : ∀ u ∈ rest, 1 ≤ u.quantity :=
      fun u hu => hq u (List.mem_cons_of_mem _ hu)
    simp only [validateCartAux, List.map_cons, List.all_cons]
    set realStock := (stockMapLookup fromDB
      (variantMapKey ci.id ci.size ci.colorName)).getD 0 with hreal
    have hr0 : 0 ≤ realStock := by
      rw [hreal]
      cases hl : stockMapLookup fromDB (variantMapKey ci.id ci.size ci.colorName) with
      | none => simp
      | some s => simpa using hnn _ s hl
    have hsuffEq : (classifyCartItem fromDB ci).hasSufficientStock =
        decide (ci.quantity ≤ realStock) := rfl
    by_cases h0 : realStock = 0
    · have hsuff : decide (ci.quantity ≤ realStock) = false := by
        simp only [decide_eq_false_iff_not, not_le]
        omega
      rw [if_pos h0]
      have h1 : ¬(0 < realStock ∧ decide (ci.quantity ≤ realStock) = false) := by
        intro hcon
        omega
      rw [if_neg h1]
      rw [ih hrest false]
      simp [hsuffEq, hsuff]
    · rw [if_neg h0]
      have hpos : 0 < realStock := by omega
      by_cases hsuff : decide (ci.quantity ≤ realStock) = false
      · rw [if_pos ⟨hpos, hsuff⟩]
        rw [ih hrest false]
        simp [hsuffEq, hsuff]
      · rw [if_neg (by simp [hsuff])]
        rw [ih hrest cc]
        have hsuff' : decide (ci.quantity ≤ realStock) = true := by
          simpa using hsuff
        simp [hsuffEq, hsuff']

theorem classifyCartItem_rules (fromDB : List Product) (ci : Pick)
    (hq : 1 ≤ ci.quantity)
    (hnn : ∀ key s, stockMapLookup fromDB key = some s → 0 ≤ s) :
    picksRulesOK ci.quantity (classifyCartItem fromDB ci).realStock
      (classifyCartItem fromDB ci).isOutOfStock
      (classifyCartItem fromDB ci).hasSufficientStock
      (classifyCartItem fromDB ci).isLowStock := by
  set realStock := (stockMapLookup fromDB
    (variantMapKey ci.id ci.size ci.colorName)).getD 0 with hreal
  have hr0 : 0 ≤ realStock := by
    rw [hreal]
    cases hl : stockMapLookup fromDB (variantMapKey ci.id ci.size ci.colorName) with
    | none => simp
    | some s => simpa using hnn _ s hl
  have hfields : (classifyCartItem fromDB ci).realStock = realStock ∧
      (classifyCartItem fromDB ci).isOutOfStock = decide (realStock = 0) ∧
      (classifyCartItem fromDB ci).hasSufficientStock = decide (ci.quantity ≤ realStock) ∧
      (classifyCartItem fromDB ci).isLowStock =
        (decide (0 < realStock) && decide (realStock ≤ 3)) := ⟨rfl, rfl, rfl, rfl⟩
  obtain ⟨hf1, hf2, hf3, hf4⟩ := hfields
  refine ⟨?_, ?_, ?_⟩
  · intro hz
    rw [hf1] at hz
    constructor
    · rw [hf2]; simp [hz]
    · rw [hf3]
      simp only [decide_eq_false_iff_not, not_le]
      omega
  · intro hpos hlt
    rw [hf1] at hpos hlt
    refine ⟨by rw [hf2]; simp; omega, ?_, ?_⟩
    · rw [hf3]
      simp only [decide_eq_false_iff_not, not_le]
      omega
    · rw [hf4, hf1]
      simp [hpos]
  · intro hge
    rw [hf1] at hge
    have hpos : 0 < realStock := by omega
    refine ⟨by rw [hf3]; simpa using hge, ?_⟩
    rw [hf4, hf1]
    simp [hpos]

theorem all_congr_mem {α : Type} {xs : List α} {f g : α → Bool}
    (hfg : ∀ x ∈ xs, f x = g x) : xs.all f = xs.all g := by
  induction xs with
  | nil => rfl
  | cons y ys ih =>
    rw [List.all_cons, List.all_cons, hfg y (List.mem_cons_self _ _),
      ih (fun z hz => hfg z (List.mem_cons_of_mem _ hz))]

theorem all_over_map {α β : Type} (f : α → β) (p : β → Bool) (l : List α) :
    (l.map f).all p = l.all (fun a => p (f a)) := by
  induction l with
  | nil => rfl
  | cons a rest ih => simp only [List.map_cons, List.all_cons, ih]

theorem classifyGuestF_flag (P : List Product) (g : GuestItem) (r : GuestAnnotated)
    (flag : Bool) (h : classifyGuestF P g = (r, flag)) :
    flag = !r.hasSufficientStock := by
  unfold classifyGuestF at h
  repeat' split at h
  all_goals cases h
  all_goals rfl

theorem foldlFlags (pairs : List (GuestAnnotated × Bool)) :
    ∀ cc, pairs.foldl (fun cc pr => if pr.2 then false else cc) cc =
      (cc && pairs.all (fun pr => !pr.2)) := by
  induction pairs with
  | nil => intro cc; simp
  | cons pr rest ih =>
    intro cc
    simp only [List.foldl_cons, List.all_cons]
    by_cases h : pr.2 = true
    · rw [if_pos h, ih]
      simp [h]
    · rw [if_neg h, ih]
      simp only [Bool.not_eq_true] at h
      simp [h]

theorem classifyGuestF_rules (P : List Product) (g : GuestItem)
    (hq : 1 ≤ g.quantity) (r : GuestAnnotated) (flag : Bool)
    (h : classifyGuestF P g = (r, flag)) :
    picksRulesOK r.item.quantity r.realStock r.isOutOfStock
      r.hasSufficientStock r.isLowStock := by
  unfold classifyGuestF at h
  repeat' split at h
  all_goals cases h
  all_goals unfold picksRulesOK
  all_goals dsimp only
  all_goals refine ⟨fun hz => ?_, fun hpos hlt => ?_, fun hge => ?_⟩
  all_goals first
    | exact ⟨rfl, rfl⟩
    | exact ⟨rfl, rfl, rfl⟩
    | (exfalso; omega)

theorem validateCartAux_zero_false (fromDB : List Product) :
    ∀ (items : List Pick) (cc : Bool) (ci : Pick), ci ∈ items →
    (stockMapLookup fromDB (variantMapKey ci.id ci.size ci.colorName)).getD 0 = 0 →
    (validateCartAux fromDB items cc).2 = false := by
  intro items
  induction items with
  | nil => intro cc ci h; simp at h
  | cons hd rest ih =>
    intro cc ci hmem h0
    rcases List.mem_cons.1 hmem with heq | hmem2
    · subst heq
      simp only [validateCartAux]
      rw [if_pos h0]
      rw [if_neg (by rw [h0]; intro hcon; exact absurd hcon.1 (by omega))]
      exact validateCartAux_false fromDB rest
    · simp only [validateCartAux]
      exact ih _ ci hmem2 h0

theorem setQtyAt_get? :
    ∀ (cart : List CartItem) (i : Nat) (q : Int) (e : CartItem),
    cart.get? i = some e →
    (setQtyAt cart i q).get? i = some { e with quantity := q } := by
  intro cart
  induction cart with
  | nil => intro i q e h; simp at h
  | cons it rest ih =>
    intro i q e h
    cases i with
    | zero =>
      simp only [List.get?] at h
      cases h
      rfl
    | succ j =>
      simp only [List.get?] at h
      exact ih j q e h

theorem mem_setQtyAt :
    ∀ (cart : List CartItem) (i : Nat) (q : Int) (x : CartItem),
    x ∈ setQtyAt cart i q →
    x ∈ cart ∨ ∃ e, cart.get? i = some e ∧ x = { e with quantity := q } := by
  intro cart
  induction cart with
  | nil => intro i q x h; simp [setQtyAt] at h
  | cons it rest ih =>
    intro i q x h
    cases i with
    | zero =>
      simp only [setQtyAt] at h
      rcases List.mem_cons.1 h with heq | hmem
      · exact Or.inr ⟨it, rfl, heq⟩
      · exact Or.inl (List.mem_cons_of_mem _ hmem)
    | succ j =>
      simp only [setQtyAt] at h
      rcases List.mem_cons.1 h with heq | hmem
      · exact Or.inl (heq ▸ List.mem_cons_self _ _)
      · rcases ih j q x hmem with h1 | ⟨e, he, hx⟩
        · exact Or.inl (List.mem_cons_of_mem _ h1)
        · exact Or.inr ⟨e, he, hx⟩

theorem setQtyAt_tuples :
    ∀ (cart : List CartItem) (i : Nat) (q : Int),
    (setQtyAt cart i q).map tupleOf = cart.map tupleOf := by
  intro cart
  induction cart with
  | nil => intro i q; rfl
  | cons it rest ih =>
    intro i q
    cases i with
    | zero => rfl
    | succ j =>
      simp only [setQtyAt, List.map_cons]
      rw [ih]

theorem cartSaveFails_false {items : List CartItem}
    (h : ∀ it ∈ items, 1 ≤ it.quantity) : cartSaveFails items = false := by
  unfold cartSaveFails
  rw [Bool.eq_false_iff]
  intro hany
  obtain ⟨x, hx, hlt⟩ := List.any_eq_true.1 hany
  have := h x hx
  simp only [decide_eq_true_eq] at hlt
  omega

theorem mergeStep_quantities (P : List Product) (keys : List String)
    (cart : List CartItem) (g : GuestItem)
    (hnn : ledgerNonneg P) (hg : 1 ≤ g.quantity)
    (hcart : ∀ it ∈ cart, 1 ≤ it.quantity) :
    ∀ x ∈ mergeStep P keys cart g, 1 ≤ x.quantity := by
  intro x hx
  unfold mergeStep at hx
  by_cases hmf : (g.productId == 0 || g.size == "" || g.colorName == "") = true
  · rw [if_pos hmf] at hx
    exact hcart x hx
  · rw [if_neg hmf] at hx
    cases hfp : P.find? (fun p => p.id == g.productId) with
    | none =>
      simp only [hfp] at hx
      exact hcart x hx
    | some p =>
      simp only [hfp] at hx
      cases hfv : p.variants.find? (·.matchKey g.size g.colorName) with
      | none =>
        simp only [hfv] at hx
        exact hcart x hx
      | some v =>
        simp only [hfv] at hx
        have hv0 : 0 ≤ v.stock :=
          hnn p (List.mem_of_find?_eq_some hfp) v (List.mem_of_find?_eq_some hfv)
        by_cases hz : v.stock = 0
        · rw [if_pos hz] at hx
          exact hcart x hx
        · rw [if_neg hz] at hx
          by_cases hkey : keys.contains (mergeKey g.productId g.size g.colorName) = true
          · rw [if_pos hkey] at hx
            cases hidx : findIdxA
                (fun it => mergeKey it.product it.size it.colorName ==
                  mergeKey g.productId g.size g.colorName) cart with
            | none =>
              simp only [hidx] at hx
              exact hcart x hx
            | some i =>
              simp only [hidx] at hx
              rcases mem_setQtyAt cart i _ x hx with hmem | ⟨e, hge, hxe⟩
              · exact hcart x hmem
              · have he := hcart e (List.get?_mem hge)
                rw [hxe]
                simp only [hge, Option.map_some', Option.getD_some]
                split <;> omega
          · rw [if_neg hkey] at hx
            rcases List.mem_append.1 hx with hmem | hone
            · exact hcart x hmem
            · have hxe : x = ⟨g.productId, g.name, g.price, g.image, g.size,
                  g.colorName, if v.stock < g.quantity then v.stock else g.quantity⟩ := by
                simpa using hone
              rw [hxe]
              dsimp only
              split <;> omega

theorem mergeFold_quantities (P : List Product) (keys : List String) :
    ∀ (guest : List GuestItem) (cart : List CartItem),
    ledgerNonneg P → (∀ g ∈ guest, 1 ≤ g.quantity) →
    (∀ it ∈ cart, 1 ≤ it.quantity) →
    ∀ x ∈ guest.foldl (mergeStep P keys) cart, 1 ≤ x.quantity := by
  intro guest
  induction guest with
  | nil => intro cart _ _ hcart x hx; exact hcart x hx
  | cons g rest ih =>
    intro cart hnn hg hcart x hx
    simp only [List.foldl_cons] at hx
    exact ih (mergeStep P keys cart g) hnn
      (fun u hu => hg u (List.mem_cons_of_mem _ hu))
      (mergeStep_quantities P keys cart g hnn (hg g (List.mem_cons_self _ _)) hcart)
      x hx

/-! ### Claim theorems -/

/-- **C2.** Verify is idempotent.  (1) On an order already in the paid
state, Verify returns the 200 `'Payment already verified'` response and
leaves the whole database — order record, payment details, `isPaid`,
`paidAt`, and every variant's stock — unchanged.  (2) After any
successful Verify, re-running Verify with the same inputs returns the
already-verified success and changes nothing, so across the two calls the
ledger is decremented exactly once (the final products are a single bulk
decrement of the originals). -/
theorem verify_idempotent :
    (∀ (hm : String → String) (fp : String → Option String) (now caller : Nat)
        (db : DB) (req : VerifyReq) (o : Order),
        findOrder db.orders req.order_id = some o → o.isPaid = true →
        verify hm fp now caller db req = (VerifyRes.alreadyPaid, db))
    ∧ (∀ (hm : String → String) (fp : String → Option String)
        (now caller now2 caller2 oid : Nat) (pid : String)
        (db db1 : DB) (req : VerifyReq) (o : Order),
        findOrder db.orders req.order_id = some o →
        verify hm fp now caller db req = (VerifyRes.success oid pid, db1) →
        verify hm fp now2 caller2 db1 req = (VerifyRes.alreadyPaid, db1) ∧
        db1.products = (bulkAdjust db.products o.orderItems (-1)).1) := by
  constructor
  · intro hm fp now caller db req o hfind hpaid
    unfold verify
    rw [hfind]
    simp [hpaid]
  · intro hm fp now caller now2 caller2 oid pid db db1 req o hfind h
    unfold verify at h
    simp only [hfind] at h
    by_cases hpaid : o.isPaid = true
    · simp [hpaid] at h
    · rw [if_neg hpaid] at h
      by_cases hsig : hm (req.razorpay_order_id ++ "|" ++ req.razorpay_payment_id) ≠
          req.razorpay_signature
      · simp [hsig] at h
      · rw [if_neg (by simpa using hsig)] at h
        cases hfetch : fp req.razorpay_payment_id with
        | none => rw [hfetch] at h; simp at h
        | some m =>
          rw [hfetch] at h
          simp only [Prod.mk.injEq] at h
          obtain ⟨-, hdb1⟩ := h
          constructor
          · unfold verify
            rw [← hdb1]
            rw [show findOrder (setOrder db.orders req.order_id _) req.order_id = some _ from
              findOrder_setOrder db.orders req.order_id o _ hfind]
            simp
          · rw [← hdb1]

/-- **C2 witness.**  On the concrete scenario (order for two units,
matching signature), the state `demoDB2` reached by one successful Verify
absorbs a second identical Verify as an already-verified no-op. -/
theorem verify_idempotent_witness :
    verify demoHmac demoFetch 1 8 demoDB2 demoReq = (VerifyRes.alreadyPaid, demoDB2) ∧
    demoDB2.products = (bulkAdjust demoDB.products demoOrder.orderItems (-1)).1 :=
  verify_idempotent.2 demoHmac demoFetch 0 7 1 8 1 "pay_1" demoDB demoDB2 demoReq
    demoOrder (by decide) (by decide)

/-- **C3.** For every unpaid order, a Verify whose caller-supplied
signature differs from the expected hex HMAC digest of
`gatewayOrderId + "|" + gatewayPaymentId` (the keyed digest function
`hm` being arbitrary) is rejected with the signature-mismatch response
and mutates nothing: the returned database — every variant's stock and
the order's `isPaid`/`paidAt`/`paymentDetails` — is exactly the input
database. -/
theorem verify_bad_signature_rejects (hm : String → String)
    (fp : String → Option String) (now caller : Nat) (db : DB) (req : VerifyReq)
    (o : Order) (hfind : findOrder db.orders req.order_id = some o)
    (hunpaid : o.isPaid = false)
    (hsig : hm (req.razorpay_order_id ++ "|" ++ req.razorpay_payment_id) ≠
      req.razorpay_signature) :
    verify hm fp now caller db req = (VerifyRes.invalidSignature, db) := by
  unfold verify
  simp only [hfind, hunpaid]
  simp [hsig]

/-- **C3 witness.**  A concrete unpaid order with a wrong signature is
rejected and the database is returned untouched. -/
theorem verify_bad_signature_rejects_witness :
    verify demoHmac demoFetch 0 7 demoDB ⟨"rzp_o", "pay_1", "WRONG", 1⟩ =
      (VerifyRes.invalidSignature, demoDB) :=
  verify_bad_signature_rejects demoHmac demoFetch 0 7 demoDB _ demoOrder
    (by decide) (by decide) (by decide)

/-- **C1 (amended).** Stock nonnegativity is *conditionally* preserved:
a Verify keeps every variant's stock ≥ 0 exactly when its per-item
decrements meet sufficient stock at application time (`decSafeB`); order
Delete's restock keeps stock ≥ 0 whenever the order's quantities are
nonnegative.  (The unconditional claim is refuted by
`verify_drives_stock_negative`: Verify's `$inc` carries no stock floor,
so a CREATED order whose quantity exceeds the stock at Verify time drives
the variant negative.) -/
theorem stock_nonneg_conditional :
    (∀ (hm : String → String) (fp : String → Option String) (now caller : Nat)
        (db db1 : DB) (req : VerifyReq) (r : VerifyRes),
        ledgerNonneg db.products →
        (∀ o, findOrder db.orders req.order_id = some o →
          decSafeB db.products o.orderItems = true) →
        verify hm fp now caller db req = (r, db1) →
        ledgerNonneg db1.products)
    ∧ (∀ (db db1 : DB) (oid : Nat) (r : DeleteRes),
        ledgerNonneg db.products →
        (∀ o, findOrder db.orders oid = some o → ∀ it ∈ o.orderItems, 0 ≤ it.quantity) →
        deleteOrder db oid = (r, db1) →
        ledgerNonneg db1.products) := by
  constructor
  · intro hm fp now caller db db1 req r hnn hsafe h
    unfold verify at h
    cases hfind : findOrder db.orders req.order_id with
    | none =>
      rw [hfind] at h
      cases h
      exact hnn
    | some o =>
      rw [hfind] at h
      simp only at h
      by_cases hpaid : o.isPaid = true
      · rw [if_pos hpaid] at h
        cases h
        exact hnn
      · rw [if_neg hpaid] at h
        by_cases hsig : hm (req.razorpay_order_id ++ "|" ++ req.razorpay_payment_id) ≠
            req.razorpay_signature
        · rw [if_pos hsig] at h
          cases h
          exact hnn
        · rw [if_neg hsig] at h
          cases hfetch : fp req.razorpay_payment_id with
          | none =>
            rw [hfetch] at h
            cases h
            exact hnn
          | some m =>
            rw [hfetch] at h
            simp only [Prod.mk.injEq] at h
            rw [← h.2]
            show ledgerNonneg (bulkAdjust db.products o.orderItems (-1)).1
            rw [show (bulkAdjust db.products o.orderItems (-1)).1 =
              bulkLedger db.products o.orderItems (-1) from bulkAdjust_fst (-1) _ _ _]
            exact bulkLedger_dec_nonneg o.orderItems db.products hnn (hsafe o hfind)
  · intro db db1 oid r hnn hq h
    unfold deleteOrder at h
    cases hfind : findOrder db.orders oid with
    | none =>
      rw [hfind] at h
      cases h
      exact hnn
    | some o =>
      rw [hfind] at h
      simp only [Prod.mk.injEq] at h
      rw [← h.2]
      by_cases hpc : o.isPaid = true ∧ o.isCancelled = false
      · simp only [hpc, if_true, and_self]
        rw [show (bulkAdjust db.products o.orderItems 1).1 =
          bulkLedger db.products o.orderItems 1 from bulkAdjust_fst 1 _ _ _]
        exact bulkLedger_inc_nonneg o.orderItems db.products hnn (hq o hfind)
      · rw [if_neg hpc]
        exact hnn

/-- **C1 witness.**  With stock 5 and an order for 2 units, the
hypotheses hold concretely and Verify preserves nonnegativity. -/
theorem stock_nonneg_conditional_witness :
    ledgerNonneg (verify demoHmac demoFetch 0 7 safeDB demoReq).2.products :=
  stock_nonneg_conditional.1 demoHmac demoFetch 0 7 safeDB
    (verify demoHmac demoFetch 0 7 safeDB demoReq).2 demoReq
    (verify demoHmac demoFetch 0 7 safeDB demoReq).1
    (by unfold ledgerNonneg; decide)
    (fun o ho => by
      rw [show findOrder safeDB.orders demoReq.order_id = some demoOrder from rfl] at ho
      cases ho
      decide)
    rfl

/-- **C1 counterexample.**  The claim as stated is false: on `demoDB`
(stock 1, nonnegative everywhere, order CREATED i.e. unpaid) a Verify of
an order for 2 units succeeds and leaves the touched variant at stock
`-1`. -/
theorem verify_drives_stock_negative :
    ledgerNonneg demoDB.products ∧
    demoOrder.isPaid = false ∧
    (verify demoHmac demoFetch 0 7 demoDB demoReq).1 = VerifyRes.success 1 "pay_1" ∧
    firstMatchVariant (verify demoHmac demoFetch 0 7 demoDB demoReq).2.products
      10 "M" "Black" = some ⟨"M", "Black", "#000", -1⟩ := by
  refine ⟨by unfold ledgerNonneg; decide, by decide, by decide, by decide⟩

/-- **C6 (amended).** A zero-rows-affected decrement does not abort the
unrelated updates in the same batch — a no-match `updateOne` leaves the
ledger unchanged and reports matched-count 0, and the batch simply
continues with the next item on the updated ledger — but the condition is
*not* surfaced: the Verify route discards the `bulkWrite` result, and its
response is entirely independent of the product collection. -/
theorem bulk_zero_rows_swallowed :
    (∀ (hm : String → String) (fp : String → Option String) (now caller : Nat)
        (orders : List (Nat × Order)) (P1 P2 : List Product) (req : VerifyReq),
        (verify hm fp now caller ⟨orders, P1⟩ req).1 =
          (verify hm fp now caller ⟨orders, P2⟩ req).1)
    ∧ (∀ (L : List Product) (pid : Nat) (size colorName : String) (delta : Int),
        firstMatchVariant L pid size colorName = none →
        adjustStock L pid size colorName delta = (L, 0))
    ∧ (∀ (L : List Product) (it : OrderItem) (rest : List OrderItem) (sign : Int),
        (bulkAdjust L (it :: rest) sign).1 =
          (bulkAdjust (adjustStock L it.product it.size it.colorName (sign * it.quantity)).1
            rest sign).1) := by
  refine ⟨?_, ?_, ?_⟩
  · intro hm fp now caller orders P1 P2 req
    unfold verify
    cases hfind : findOrder orders req.order_id with
    | none => rfl
    | some o =>
      simp only
      by_cases hpaid : o.isPaid = true
      · rw [if_pos hpaid, if_pos hpaid]
      · rw [if_neg hpaid, if_neg hpaid]
        by_cases hsig : hm (req.razorpay_order_id ++ "|" ++ req.razorpay_payment_id) ≠
            req.razorpay_signature
        · rw [if_pos hsig, if_pos hsig]
        · rw [if_neg hsig, if_neg hsig]
          cases hfetch : fp req.razorpay_payment_id with
          | none => rfl
          | some m => rfl
  · intro L pid size colorName delta h
    induction L with
    | nil => rfl
    | cons p rest ih =>
      unfold firstMatchVariant at h
      rw [find?_cons_eq (fun pr : Product =>
        pr.id == pid && pr.variants.any (·.matchKey size colorName)) p rest] at h
      by_cases hp : (p.id == pid && p.variants.any (·.matchKey size colorName)) = true
      · rw [if_pos hp] at h
        simp only [Option.some_bind] at h
        rw [List.find?_eq_none] at h
        have hsplit : p.id = pid ∧ p.variants.any (·.matchKey size colorName) = true := by
          simpa [Bool.and_eq_true, beq_iff_eq] using hp
        obtain ⟨v, hv, hpv⟩ := List.any_eq_true.1 hsplit.2
        exact absurd hpv (by simpa using h v hv)
      · rw [if_neg hp] at h
        have hcond : ¬(p.id = pid ∧ p.variants.any (·.matchKey size colorName) = true) := by
          intro hc
          exact hp (by simp [Bool.and_eq_true, beq_iff_eq, hc.1, hc.2])
        unfold adjustStock
        rw [if_neg hcond]
        rw [ih h]
  · intro L it rest sign
    have h1 := bulkAdjust_fst sign (it :: rest) L 0
    have h2 := bulkAdjust_fst sign rest
      (adjustStock L it.product it.size it.colorName (sign * it.quantity)).1 0
    unfold bulkAdjust
    rw [h1, h2]
    simp only [bulkLedger, List.foldl_cons]

/-- **C6 witness.**  A decrement aimed at deleted product 10 leaves the
remaining ledger untouched and reports zero matched rows. -/
theorem bulk_zero_rows_swallowed_witness :
    adjustStock dbMissingVariant.products 10 "M" "Black" (-1) =
      (dbMissingVariant.products, 0) :=
  bulk_zero_rows_swallowed.2.1 dbMissingVariant.products 10 "M" "Black" (-1) (by decide)

/-- **C6 counterexample.**  The claim as stated is false: a Verify of the
two-item `twoItemOrder` returns the *same* success response whether every
decrement matched (`dbBothVariants`, total matched count 2) or the first
decrement matched zero rows (`dbMissingVariant`, total matched count 1) —
nothing about the zero-rows condition reaches the caller — even though
the unrelated second variant is still decremented (5 → 4). -/
theorem bulk_zero_rows_not_surfaced_cex :
    (verify demoHmac demoFetch 0 7 dbBothVariants demoReq).1 =
      (verify demoHmac demoFetch 0 7 dbMissingVariant demoReq).1 ∧
    (bulkAdjust dbBothVariants.products twoItemOrder.orderItems (-1)).2 = 2 ∧
    (bulkAdjust dbMissingVariant.products twoItemOrder.orderItems (-1)).2 = 1 ∧
    firstMatchVariant (verify demoHmac demoFetch 0 7 dbMissingVariant demoReq).2.products
      11 "L" "Red" = some ⟨"L", "Red", "#f00", 4⟩ := by
  refine ⟨by decide, by decide, by decide, by decide⟩

/-- **C4 (amended).** For picks whose quantity is at least 1, the Stock
Validator annotates by the stated rules and `canCheckout` equals the
conjunction of `hasSufficientStock`: unconditionally so for the guest
validator, and for the orders-route `validate-cart` provided the ledger
stocks are nonnegative.  (As stated the claim fails at quantity-0 picks,
where `hasSufficientStock = realStock >= 0` is `true` even out of stock,
and at negative stocks, where `canCheckout` is not cleared — see
`validate_cart_rules_cex`.) -/
theorem stock_validator_rules :
    (∀ (products : List Product) (items : List Pick),
        (∀ ci ∈ items, 1 ≤ ci.quantity) → ledgerNonneg products →
        (∀ r ∈ (validateCart products items).1,
          picksRulesOK r.item.quantity r.realStock r.isOutOfStock
            r.hasSufficientStock r.isLowStock) ∧
        (validateCart products items).2 =
          (validateCart products items).1.all (·.hasSufficientStock))
    ∧ (∀ (products : List Product) (guestCart : List GuestItem),
        (∀ g ∈ guestCart, 1 ≤ g.quantity) →
        (∀ r ∈ (validateGuest products guestCart).1,
          picksRulesOK r.item.quantity r.realStock r.isOutOfStock
            r.hasSufficientStock r.isLowStock) ∧
        (validateGuest products guestCart).2 =
          (validateGuest products guestCart).1.all (·.hasSufficientStock)) := by
  constructor
  · intro products items hq hnn
    have hlook : ∀ key s, stockMapLookup (dbFilter products items) key = some s → 0 ≤ s :=
      fun key s h => stockMapLookup_nonneg key _ (ledgerNonneg_dbFilter items hnn) s h
    constructor
    · intro r hr
      rw [show (validateCart products items).1 =
          items.map (classifyCartItem (dbFilter products items)) from
        validateCartAux_fst _ items true] at hr
      obtain ⟨ci, hci, rfl⟩ := List.mem_map.1 hr
      exact classifyCartItem_rules _ ci (hq ci hci) hlook
    · unfold validateCart
      rw [validateCartAux_snd _ hlook items hq true, validateCartAux_fst]
      simp
  · intro products guestCart hq
    constructor
    · intro r hr
      unfold validateGuest at hr
      simp only [List.map_map] at hr
      obtain ⟨g, hg, rfl⟩ := List.mem_map.1 hr
      exact classifyGuestF_rules products g (hq g hg) _ _ rfl
    · unfold validateGuest
      simp only
      rw [foldlFlags]
      rw [all_over_map (classifyGuestF products) (fun pr => !pr.2) guestCart]
      simp only [Bool.true_and, List.map_map]
      rw [all_over_map ((fun x : GuestAnnotated × Bool => x.1) ∘ classifyGuestF products)
        (·.hasSufficientStock) guestCart]
      refine all_congr_mem ?_
      intro g hg
      rw [classifyGuestF_flag products g (classifyGuestF products g).1
        (classifyGuestF products g).2 rfl]
      simp

/-- **C4 witness.**  On a concrete batch mixing an in-stock pick, an
insufficient pick and a missing-variant pick (all with quantity ≥ 1 over
a nonnegative ledger), the rules hold and `canCheckout` is the
conjunction; ditto for a concrete guest batch. -/
theorem stock_validator_rules_witness :
    ((validateCart [⟨10, "Tee", [⟨"M", "Black", "#000", 2⟩]⟩]
        [⟨10, "M", "Black", 1⟩, ⟨10, "M", "Black", 3⟩, ⟨99, "S", "Red", 1⟩]).2 =
      (validateCart [⟨10, "Tee", [⟨"M", "Black", "#000", 2⟩]⟩]
        [⟨10, "M", "Black", 1⟩, ⟨10, "M", "Black", 3⟩, ⟨99, "S", "Red", 1⟩]).1.all
          (·.hasSufficientStock))
    ∧ ((validateGuest [⟨10, "Tee", [⟨"M", "Black", "#000", 2⟩]⟩]
        [⟨10, "Tee", 100, "img", "M", "Black", 1⟩]).2 =
      (validateGuest [⟨10, "Tee", [⟨"M", "Black", "#000", 2⟩]⟩]
        [⟨10, "Tee", 100, "img", "M", "Black", 1⟩]).1.all (·.hasSufficientStock)) :=
  ⟨(stock_validator_rules.1 [⟨10, "Tee", [⟨"M", "Black", "#000", 2⟩]⟩]
      [⟨10, "M", "Black", 1⟩, ⟨10, "M", "Black", 3⟩, ⟨99, "S", "Red", 1⟩]
      (by decide) (by unfold ledgerNonneg; decide)).2,
   (stock_validator_rules.2 [⟨10, "Tee", [⟨"M", "Black", "#000", 2⟩]⟩]
      [⟨10, "Tee", 100, "img", "M", "Black", 1⟩] (by decide)).2⟩

/-- **C4 counterexample.**  The claim as stated is false on the orders
`validate-cart` route.  Left: a quantity-0 pick of a zero-stock variant is
annotated `realStock = 0` yet `hasSufficientStock = true` (the rules
demand `false`), and `canCheckout = false` differs from the conjunction
(`true`).  Right: with a negative-stock variant (reachable, see the C1
counterexample) and quantity 1, `hasSufficientStock = false` for the only
pick yet `canCheckout = true`. -/
theorem validate_cart_rules_cex :
    ((validateCart [⟨10, "Tee", [⟨"M", "Black", "#000", 0⟩]⟩]
        [⟨10, "M", "Black", 0⟩]).1.map (·.realStock) = [0]
      ∧ (validateCart [⟨10, "Tee", [⟨"M", "Black", "#000", 0⟩]⟩]
          [⟨10, "M", "Black", 0⟩]).1.map (·.hasSufficientStock) = [true]
      ∧ (validateCart [⟨10, "Tee", [⟨"M", "Black", "#000", 0⟩]⟩]
          [⟨10, "M", "Black", 0⟩]).2 = false)
    ∧ ((validateCart [⟨10, "Tee", [⟨"M", "Black", "#000", -1⟩]⟩]
          [⟨10, "M", "Black", 1⟩]).1.map (·.hasSufficientStock) = [false]
      ∧ (validateCart [⟨10, "Tee", [⟨"M", "Black", "#000", -1⟩]⟩]
          [⟨10, "M", "Black", 1⟩]).2 = true) := by
  exact ⟨⟨by decide, by decide, by decide⟩, ⟨by decide, by decide⟩⟩

/-- **C9 (amended).** A pick whose stock-map key (for `validate-cart`) is
absent — in particular when its product or variant no longer exists and
no other variant's key collides — or whose product is missing (for the
guest validator) is classified `realStock = 0`, `isOutOfStock = true`,
`hasSufficientStock = false` (for `validate-cart` the latter only when
the pick's quantity ≥ 1), forces `canCheckout = false`, and never aborts
the batch: both validators always return the full annotated list,
pointwise over the input. -/
theorem validator_missing_product :
    (∀ (products : List Product) (items : List Pick),
        (validateCart products items).1 =
          items.map (classifyCartItem (dbFilter products items)))
    ∧ (∀ (fromDB : List Product) (ci : Pick),
        stockMapLookup fromDB (variantMapKey ci.id ci.size ci.colorName) = none →
        (classifyCartItem fromDB ci).realStock = 0 ∧
        (classifyCartItem fromDB ci).isOutOfStock = true ∧
        (1 ≤ ci.quantity → (classifyCartItem fromDB ci).hasSufficientStock = false))
    ∧ (∀ (products : List Product) (items : List Pick) (ci : Pick), ci ∈ items →
        stockMapLookup (dbFilter products items)
          (variantMapKey ci.id ci.size ci.colorName) = none →
        (validateCart products items).2 = false)
    ∧ (∀ (products : List Product) (guestCart : List GuestItem),
        (validateGuest products guestCart).1 =
          guestCart.map (fun g => (classifyGuestF products g).1))
    ∧ (∀ (products : List Product) (g : GuestItem),
        products.find? (fun p => p.id == g.productId) = none →
        classifyGuestF products g = (⟨g, 0, true, false, false⟩, true))
    ∧ (∀ (products : List Product) (guestCart : List GuestItem) (g : GuestItem),
        g ∈ guestCart → products.find? (fun p => p.id == g.productId) = none →
        (validateGuest products guestCart).2 = false) := by
  refine ⟨?_, ?_, ?_, ?_, ?_, ?_⟩
  · intro products items
    exact validateCartAux_fst _ items true
  · intro fromDB ci hlook
    unfold classifyCartItem
    rw [hlook]
    refine ⟨rfl, rfl, ?_⟩
    intro hq
    simp only [Option.getD_none]
    simp only [decide_eq_false_iff_not, not_le]
    omega
  · intro products items ci hmem hlook
    unfold validateCart
    refine validateCartAux_zero_false _ items true ci hmem ?_
    rw [hlook]
    rfl
  · intro products guestCart
    unfold validateGuest
    simp [List.map_map]
  · intro products g hf
    unfold classifyGuestF
    rw [hf]
  · intro products guestCart g hg hf
    unfold validateGuest
    simp only
    rw [foldlFlags]
    rw [all_over_map (classifyGuestF products) (fun pr => !pr.2) guestCart]
    rw [Bool.true_and, Bool.eq_false_iff]
    intro hall
    rw [List.all_eq_true] at hall
    have := hall g hg
    rw [show classifyGuestF products g = (⟨g, 0, true, false, false⟩, true) from by
      unfold classifyGuestF; rw [hf]] at this
    simp at this

/-- **C9 witness.**  Concretely: a quantity-1 pick of deleted product 99
in a one-product ledger is annotated out-of-stock with
`hasSufficientStock = false` and forces `canCheckout = false`; a guest
item of a deleted product is annotated out-of-stock and forces
`canCheckout = false`. -/
theorem validator_missing_product_witness :
    ((classifyCartItem (dbFilter [⟨10, "Tee", [⟨"M", "Black", "#000", 5⟩]⟩]
        [⟨99, "M", "Black", 1⟩]) ⟨99, "M", "Black", 1⟩).realStock = 0
      ∧ (classifyCartItem (dbFilter [⟨10, "Tee", [⟨"M", "Black", "#000", 5⟩]⟩]
        [⟨99, "M", "Black", 1⟩]) ⟨99, "M", "Black", 1⟩).isOutOfStock = true)
    ∧ (validateCart [⟨10, "Tee", [⟨"M", "Black", "#000", 5⟩]⟩]
        [⟨99, "M", "Black", 1⟩]).2 = false
    ∧ (validateGuest [⟨10, "Tee", [⟨"M", "Black", "#000", 5⟩]⟩]
        [⟨99, "Tee", 100, "img", "M", "Black", 1⟩]).2 = false :=
  ⟨⟨(validator_missing_product.2.1 _ ⟨99, "M", "Black", 1⟩ (by decide)).1,
    (validator_missing_product.2.1 _ ⟨99, "M", "Black", 1⟩ (by decide)).2.1⟩,
   validator_missing_product.2.2.1 [⟨10, "Tee", [⟨"M", "Black", "#000", 5⟩]⟩]
     [⟨99, "M", "Black", 1⟩] ⟨99, "M", "Black", 1⟩ (by decide) (by decide),
   validator_missing_product.2.2.2.2.2 [⟨10, "Tee", [⟨"M", "Black", "#000", 5⟩]⟩]
     [⟨99, "Tee", 100, "img", "M", "Black", 1⟩] ⟨99, "Tee", 100, "img", "M", "Black", 1⟩
     (by decide) (by decide)⟩

/-- **C9 counterexample.**  The claim as stated is false: a quantity-0
pick of a missing product in the orders `validate-cart` is annotated
`isOutOfStock = true` but `hasSufficientStock = true` (the claim demands
`false`), although `canCheckout` is still `false`. -/
theorem validator_missing_product_cex :
    (validateCart [] [⟨10, "M", "Black", 0⟩]).1.map (·.hasSufficientStock) = [true] ∧
    (validateCart [] [⟨10, "M", "Black", 0⟩]).1.map (·.isOutOfStock) = [true] ∧
    (validateCart [] [⟨10, "M", "Black", 0⟩]).2 = false := by
  exact ⟨by decide, by decide, by decide⟩

/-- **C7 (amended).** For a cart add with quantity ≥ 1 (and all request
fields present): when the `(product, size, colorName)` tuple is already in
the cart at the first matching index, the merged quantity is the sum of
the existing and added quantities — the add is rejected with the cart
unchanged when the sum exceeds the found variant's stock, and otherwise
the single existing line is updated in place to the summed quantity (the
tuple list is unchanged, so no duplicate line appears); when the tuple is
absent, the item is appended (rejected when its quantity alone exceeds
stock).  (As stated the claim fails at quantity 0, which the route's
truthiness guard rejects as missing fields, and at negative quantities,
which fail schema validation on save — see `cart_add_zero_quantity_cex`.) -/
theorem cart_add_merges :
    ∀ (products : List Product) (cart : List CartItem) (req : AddReq)
      (p : Product) (v : Variant),
      addMissingFields req = false →
      1 ≤ req.quantity →
      products.find? (fun pr => pr.id == req.productId) = some p →
      p.variants.find? (·.matchKey req.size req.colorName) = some v →
      ((∀ (i : Nat) (e : CartItem),
          findIdxA (cartTupleMatch req) cart = some i → cart.get? i = some e →
          (v.stock < e.quantity + req.quantity →
            cartAdd products cart req = (AddRes.insufficient, cart)) ∧
          ((∀ it ∈ cart, 1 ≤ it.quantity) → e.quantity + req.quantity ≤ v.stock →
            cartAdd products cart req =
              (AddRes.ok, setQtyAt cart i (e.quantity + req.quantity)) ∧
            (setQtyAt cart i (e.quantity + req.quantity)).map tupleOf = cart.map tupleOf ∧
            (setQtyAt cart i (e.quantity + req.quantity)).get? i =
              some { e with quantity := e.quantity + req.quantity }))
      ∧ (findIdxA (cartTupleMatch req) cart = none →
          (v.stock < req.quantity →
            cartAdd products cart req = (AddRes.insufficient, cart)) ∧
          ((∀ it ∈ cart, 1 ≤ it.quantity) → req.quantity ≤ v.stock →
            cartAdd products cart req =
              (AddRes.ok, cart ++ [mkCartItem req req.quantity])))) := by
  intro products cart req p v hmf hq hfp hfv
  constructor
  · intro i e hidx hget
    have hbase : cartAdd products cart req =
        (if v.stock < e.quantity + req.quantity then (AddRes.insufficient, cart)
         else if cartSaveFails (setQtyAt cart i (e.quantity + req.quantity)) then
           (AddRes.saveError, cart)
         else (AddRes.ok, setQtyAt cart i (e.quantity + req.quantity))) := by
      unfold cartAdd
      rw [if_neg (show ¬(addMissingFields req = true) by simp [hmf])]
      simp only [hfp, hfv, hidx, hget, Option.map_some', Option.getD_some]
    constructor
    · intro hlt
      rw [hbase, if_pos hlt]
    · intro hcart hle
      have hemem : e ∈ cart := List.get?_mem hget
      have hsave : cartSaveFails (setQtyAt cart i (e.quantity + req.quantity)) = false := by
        apply cartSaveFails_false
        intro x hx
        rcases mem_setQtyAt cart i _ x hx with hmem | ⟨e2, hge2, hxe⟩
        · exact hcart x hmem
        · rw [hget] at hge2
          cases hge2
          rw [hxe]
          have h1 := hcart e hemem
          dsimp only
          omega
      rw [hbase, if_neg (by omega)]
      simp only [hsave, Bool.false_eq_true, if_false]
      exact ⟨by trivial, setQtyAt_tuples cart i _, setQtyAt_get? cart i _ e hget⟩
  · intro hidx
    have hbase : cartAdd products cart req =
        (if v.stock < req.quantity then (AddRes.insufficient, cart)
         else if cartSaveFails (cart ++ [mkCartItem req req.quantity]) then
           (AddRes.saveError, cart)
         else (AddRes.ok, cart ++ [mkCartItem req req.quantity])) := by
      unfold cartAdd
      rw [if_neg (show ¬(addMissingFields req = true) by simp [hmf])]
      simp only [hfp, hfv, hidx]
    constructor
    · intro hlt
      rw [hbase, if_pos hlt]
    · intro hcart hle
      have hsave : cartSaveFails (cart ++ [mkCartItem req req.quantity]) = false := by
        apply cartSaveFails_false
        intro x hx
        rcases List.mem_append.1 hx with h1 | h1
        · exact hcart x h1
        · have : x = mkCartItem req req.quantity := by simpa using h1
          rw [this]
          dsimp only [mkCartItem]
          omega
      rw [hbase, if_neg (by omega)]
      simp only [hsave, Bool.false_eq_true, if_false]

/-- **C7 witness.**  Adding quantity 3 of a tuple already present with
quantity 2 over stock 5 yields the single line with quantity 5; adding 1
more is then rejected with the cart unchanged. -/
theorem cart_add_merges_witness :
    cartAdd [⟨10, "Tee", [⟨"M", "Black", "#000", 5⟩]⟩]
      [⟨10, "Tee", 100, "img", "M", "Black", 2⟩]
      ⟨10, "Tee", 100, "img", "M", "Black", 3⟩ =
      (AddRes.ok, [⟨10, "Tee", 100, "img", "M", "Black", 5⟩]) ∧
    cartAdd [⟨10, "Tee", [⟨"M", "Black", "#000", 5⟩]⟩]
      [⟨10, "Tee", 100, "img", "M", "Black", 5⟩]
      ⟨10, "Tee", 100, "img", "M", "Black", 1⟩ =
      (AddRes.insufficient, [⟨10, "Tee", 100, "img", "M", "Black", 5⟩]) := by
  constructor
  · have h := (cart_add_merges [⟨10, "Tee", [⟨"M", "Black", "#000", 5⟩]⟩]
      [⟨10, "Tee", 100, "img", "M", "Black", 2⟩]
      ⟨10, "Tee", 100, "img", "M", "Black", 3⟩
      ⟨10, "Tee", [⟨"M", "Black", "#000", 5⟩]⟩ ⟨"M", "Black", "#000", 5⟩
      (by decide) (by decide) (by decide) (by decide)).1 0
      ⟨10, "Tee", 100, "img", "M", "Black", 2⟩ (by decide) (by decide)
    exact (h.2 (by decide) (by decide)).1
  · have h := (cart_add_merges [⟨10, "Tee", [⟨"M", "Black", "#000", 5⟩]⟩]
      [⟨10, "Tee", 100, "img", "M", "Black", 5⟩]
      ⟨10, "Tee", 100, "img", "M", "Black", 1⟩
      ⟨10, "Tee", [⟨"M", "Black", "#000", 5⟩]⟩ ⟨"M", "Black", "#000", 5⟩
      (by decide) (by decide) (by decide) (by decide)).1 0
      ⟨10, "Tee", 100, "img", "M", "Black", 5⟩ (by decide) (by decide)
    exact h.1 (by decide)

/-- **C7 counterexample.**  The claim as stated is false: adding quantity
0 of an already-present tuple (merged quantity 2, well under stock 99)
should by the claim leave one line of quantity 2 and succeed, but the
route's truthiness guard rejects it as missing fields; and adding
quantity −1 to an empty cart is neither a stock rejection nor an upsert —
schema validation fails the save (500) and the stored cart is unchanged. -/
theorem cart_add_zero_quantity_cex :
    cartAdd [⟨10, "Tee", [⟨"M", "Black", "#000", 99⟩]⟩]
      [⟨10, "Tee", 100, "img", "M", "Black", 2⟩]
      ⟨10, "Tee", 100, "img", "M", "Black", 0⟩ =
      (AddRes.missingFields, [⟨10, "Tee", 100, "img", "M", "Black", 2⟩]) ∧
    cartAdd [⟨10, "Tee", [⟨"M", "Black", "#000", 99⟩]⟩] []
      ⟨10, "Tee", 100, "img", "M", "Black", -1⟩ = (AddRes.saveError, []) := by
  exact ⟨by decide, by decide⟩

/-- **C8 (amended).** Merge folds the guest cart item by item: an item
with missing fields, a missing product, a missing variant, or zero stock
is skipped (the cart is returned unchanged and the fold continues); an
item whose tuple key is in the initial persisted-cart key set updates the
matching line to the sum of quantities clamped to the variant's current
stock; any other item is appended with its quantity clamped to stock.
Provided every guest quantity is ≥ 1, every stored-cart quantity is ≥ 1
and ledger stocks are nonnegative, the final `cart.save()` succeeds, so
the merge call never fails.  (As stated the claim is false: a guest item
with quantity 0 — or one hitting a negative-stock variant — makes the
saved document violate the cart schema's `min: 1`, failing the *whole*
call with a 500 and no mutation; see `cart_merge_save_fails_cex`.) -/
theorem cart_merge_semantics :
    (∀ (P : List Product) (keys : List String) (cart : List CartItem) (g : GuestItem),
        (g.productId == 0 || g.size == "" || g.colorName == "") = true →
        mergeStep P keys cart g = cart)
    ∧ (∀ (P : List Product) (keys : List String) (cart : List CartItem) (g : GuestItem),
        (g.productId == 0 || g.size == "" || g.colorName == "") = false →
        P.find? (fun p => p.id == g.productId) = none →
        mergeStep P keys cart g = cart)
    ∧ (∀ (P : List Product) (keys : List String) (cart : List CartItem) (g : GuestItem)
        (p : Product),
        (g.productId == 0 || g.size == "" || g.colorName == "") = false →
        P.find? (fun pr => pr.id == g.productId) = some p →
        p.variants.find? (·.matchKey g.size g.colorName) = none →
        mergeStep P keys cart g = cart)
    ∧ (∀ (P : List Product) (keys : List String) (cart : List CartItem) (g : GuestItem)
        (p : Product) (v : Variant),
        (g.productId == 0 || g.size == "" || g.colorName == "") = false →
        P.find? (fun pr => pr.id == g.productId) = some p →
        p.variants.find? (·.matchKey g.size g.colorName) = some v →
        v.stock = 0 →
        mergeStep P keys cart g = cart)
    ∧ (∀ (P : List Product) (keys : List String) (cart : List CartItem) (g : GuestItem)
        (p : Product) (v : Variant) (i : Nat) (e : CartItem),
        (g.productId == 0 || g.size == "" || g.colorName == "") = false →
        P.find? (fun pr => pr.id == g.productId) = some p →
        p.variants.find? (·.matchKey g.size g.colorName) = some v →
        v.stock ≠ 0 →
        keys.contains (mergeKey g.productId g.size g.colorName) = true →
        findIdxA (fun it => mergeKey it.product it.size it.colorName ==
          mergeKey g.productId g.size g.colorName) cart = some i →
        cart.get? i = some e →
        mergeStep P keys cart g = setQtyAt cart i
          (if v.stock < e.quantity + g.quantity then v.stock
           else e.quantity + g.quantity))
    ∧ (∀ (P : List Product) (keys : List String) (cart : List CartItem) (g : GuestItem)
        (p : Product) (v : Variant),
        (g.productId == 0 || g.size == "" || g.colorName == "") = false →
        P.find? (fun pr => pr.id == g.productId) = some p →
        p.variants.find? (·.matchKey g.size g.colorName) = some v →
        v.stock ≠ 0 →
        keys.contains (mergeKey g.productId g.size g.colorName) = false →
        mergeStep P keys cart g = cart ++
          [⟨g.productId, g.name, g.price, g.image, g.size, g.colorName,
            if v.stock < g.quantity then v.stock else g.quantity⟩])
    ∧ (∀ (P : List Product) (cart : List CartItem) (guest : List GuestItem),
        mergeCart P cart guest = guest.foldl
          (mergeStep P (cart.map (fun it => mergeKey it.product it.size it.colorName)))
          cart)
    ∧ (∀ (P : List Product) (cart : List CartItem) (guest : List GuestItem),
        ledgerNonneg P → (∀ it ∈ cart, 1 ≤ it.quantity) →
        (∀ g ∈ guest, 1 ≤ g.quantity) →
        mergeCartSave P cart guest = some (mergeCart P cart guest)) := by
  refine ⟨?_, ?_, ?_, ?_, ?_, ?_, ?_, ?_⟩
  · intro P keys cart g hmf
    unfold mergeStep
    rw [if_pos hmf]
  · intro P keys cart g hmf hfp
    unfold mergeStep
    rw [if_neg (by simp [hmf])]
    simp only [hfp]
  · intro P keys cart g p hmf hfp hfv
    unfold mergeStep
    rw [if_neg (by simp [hmf])]
    simp only [hfp, hfv]
  · intro P keys cart g p v hmf hfp hfv hz
    unfold mergeStep
    rw [if_neg (by simp [hmf])]
    simp only [hfp, hfv]
    rw [if_pos hz]
  · intro P keys cart g p v i e hmf hfp hfv hz hkey hidx hget
    unfold mergeStep
    rw [if_neg (by simp [hmf])]
    simp only [hfp, hfv]
    rw [if_neg hz, if_pos hkey]
    simp only [hidx, hget, Option.map_some', Option.getD_some]
  · intro P keys cart g p v hmf hfp hfv hz hkey
    unfold mergeStep
    rw [if_neg (by simp [hmf])]
    simp only [hfp, hfv]
    rw [if_neg hz, if_neg (fun h => absurd (hkey ▸ h) (by decide))]
  · intro P cart guest
    rfl
  · intro P cart guest hnn hcart hg
    have hsf : cartSaveFails (mergeCart P cart guest) = false := by
      apply cartSaveFails_false
      intro x hx
      unfold mergeCart at hx
      exact mergeFold_quantities P _ guest cart hnn hg hcart x hx
    unfold mergeCartSave
    simp only [hsf, Bool.false_eq_true, if_false]

/-- **C8 witness.**  Concretely: a guest item for a deleted product is
skipped; merging a guest quantity 9 into a stored line of quantity 3 over
stock 5 clamps to 5; a fresh guest item of quantity 9 over stock 5 is
inserted clamped to 5; and with all quantities ≥ 1 over a nonnegative
ledger the merge save succeeds. -/
theorem cart_merge_semantics_witness :
    mergeStep [⟨10, "Tee", [⟨"M", "Black", "#000", 5⟩]⟩] [] []
      ⟨99, "Gone", 50, "img", "M", "Black", 2⟩ = [] ∧
    mergeStep [⟨10, "Tee", [⟨"M", "Black", "#000", 5⟩]⟩] ["10-M-Black"]
      [⟨10, "Tee", 100, "img", "M", "Black", 3⟩]
      ⟨10, "Tee", 100, "img", "M", "Black", 9⟩ =
      setQtyAt [⟨10, "Tee", 100, "img", "M", "Black", 3⟩] 0 5 ∧
    mergeStep [⟨10, "Tee", [⟨"M", "Black", "#000", 5⟩]⟩] [] []
      ⟨10, "Tee", 100, "img", "M", "Black", 9⟩ =
      [⟨10, "Tee", 100, "img", "M", "Black", 5⟩] ∧
    mergeCartSave [⟨10, "Tee", [⟨"M", "Black", "#000", 5⟩]⟩]
      [⟨10, "Tee", 100, "img", "M", "Black", 3⟩]
      [⟨10, "Tee", 100, "img", "M", "Black", 9⟩, ⟨99, "Gone", 50, "img", "S", "Red", 1⟩] =
      some (mergeCart [⟨10, "Tee", [⟨"M", "Black", "#000", 5⟩]⟩]
        [⟨10, "Tee", 100, "img", "M", "Black", 3⟩]
        [⟨10, "Tee", 100, "img", "M", "Black", 9⟩, ⟨99, "Gone", 50, "img", "S", "Red", 1⟩]) := by
  refine ⟨?_, ?_, ?_, ?_⟩
  · exact cart_merge_semantics.2.1 [⟨10, "Tee", [⟨"M", "Black", "#000", 5⟩]⟩] [] []
      ⟨99, "Gone", 50, "img", "M", "Black", 2⟩ (by decide) (by decide)
  · have h := cart_merge_semantics.2.2.2.2.1 [⟨10, "Tee", [⟨"M", "Black", "#000", 5⟩]⟩]
      ["10-M-Black"] [⟨10, "Tee", 100, "img", "M", "Black", 3⟩]
      ⟨10, "Tee", 100, "img", "M", "Black", 9⟩
      ⟨10, "Tee", [⟨"M", "Black", "#000", 5⟩]⟩ ⟨"M", "Black", "#000", 5⟩ 0
      ⟨10, "Tee", 100, "img", "M", "Black", 3⟩
      (by decide) (by decide) (by decide) (by decide) (by decide) (by decide) (by decide)
    exact h.trans (by decide)
  · have h := cart_merge_semantics.2.2.2.2.2.1 [⟨10, "Tee", [⟨"M", "Black", "#000", 5⟩]⟩]
      [] [] ⟨10, "Tee", 100, "img", "M", "Black", 9⟩
      ⟨10, "Tee", [⟨"M", "Black", "#000", 5⟩]⟩ ⟨"M", "Black", "#000", 5⟩
      (by decide) (by decide) (by decide) (by decide) (by decide)
    exact h.trans (by decide)
  · exact cart_merge_semantics.2.2.2.2.2.2.2 [⟨10, "Tee", [⟨"M", "Black", "#000", 5⟩]⟩]
      [⟨10, "Tee", 100, "img", "M", "Black", 3⟩]
      [⟨10, "Tee", 100, "img", "M", "Black", 9⟩, ⟨99, "Gone", 50, "img", "S", "Red", 1⟩]
      (by unfold ledgerNonneg; decide) (by decide) (by decide)

/-- **C8 counterexample.**  The claim as stated is false: merge is not
immune to a single bad item.  A guest item with quantity 0 referencing a
perfectly valid stock-5 variant is not skipped (only missing
product/variant and stock 0 are skip conditions); it is inserted with
quantity 0, the saved document violates the cart schema's `min: 1`, and
the whole call fails with a 500, mutating nothing.  Likewise a
quantity-1 item hitting a negative-stock variant is clamped to the
negative stock and fails the whole save. -/
theorem cart_merge_save_fails_cex :
    mergeCartSave [⟨10, "Tee", [⟨"M", "Black", "#000", 5⟩]⟩] []
      [⟨10, "Tee", 100, "img", "M", "Black", 0⟩] = none ∧
    mergeCartSave [⟨10, "Tee", [⟨"M", "Black", "#000", -3⟩]⟩] []
      [⟨10, "Tee", 100, "img", "M", "Black", 1⟩] = none := by
  exact ⟨by decide, by decide⟩

/-- **C10.** Verify performs no ownership check: its outcome and the
resulting database are identical for any two authenticated callers on the
same order id and payment payload.  In contrast, Cancel and Repay compare
the caller to the order's user: on the concrete database `demoDB` (order
1 owned by user 1), caller 1 and caller 2 get different Cancel responses
and different Repay responses. -/
theorem verify_caller_independent :
    (∀ (hm : String → String) (fp : String → Option String) (now a b : Nat)
        (db : DB) (req : VerifyReq),
        verify hm fp now a db req = verify hm fp now b db req)
    ∧ (cancelOrder 1 demoDB 1).1 ≠ (cancelOrder 2 demoDB 1).1
    ∧ (repay none 1 demoDB 1).1 ≠ (repay none 2 demoDB 1).1 :=
  ⟨fun _ _ _ _ _ _ _ => rfl, by decide, by decide⟩

theorem find?_adjustVariants (vs : List Variant) (size colorName : String)
    (q : Int) (v : Variant)
    (h : vs.find? (·.matchKey size colorName) = some v) :
    (adjustVariants vs size colorName q).find? (·.matchKey size colorName) =
      some { v with stock := v.stock + q } := by
  induction vs with
  | nil => simp at h
  | cons w ws ih =>
    rw [find?_cons_eq (fun x => Variant.matchKey x size colorName) w ws] at h
    by_cases hw : w.matchKey size colorName
    · rw [if_pos hw] at h
      cases h
      have hw2 : Variant.matchKey { v with stock := v.stock + q } size colorName = true := by
        simpa [Variant.matchKey] using hw
      simp only [adjustVariants, hw, if_true]
      rw [find?_cons_eq (fun x => Variant.matchKey x size colorName)]
      rw [if_pos hw2]
    · rw [if_neg hw] at h
      have hw' : w.matchKey size colorName = false := by simpa using hw
      simp only [adjustVariants, hw', Bool.false_eq_true, if_false]
      rw [find?_cons_eq (fun x => Variant.matchKey x size colorName)]
      rw [if_neg hw]
      exact ih h

theorem any_of_find?_some {vs : List Variant} {size colorName : String} {v : Variant}
    (h : vs.find? (·.matchKey size colorName) = some v) :
    vs.any (·.matchKey size colorName) = true := by
  have hm := List.mem_of_find?_eq_some h
  have hp := List.find?_some h
  exact List.any_eq_true.2 ⟨v, hm, hp⟩

theorem firstMatchVariant_adjustStock (products : List Product) (pid : Nat)
    (size colorName : String) (q : Int) (v : Variant)
    (h : firstMatchVariant products pid size colorName = some v) :
    firstMatchVariant (adjustStock products pid size colorName q).1 pid size colorName =
      some { v with stock := v.stock + q } := by
  induction products with
  | nil => simp [firstMatchVariant] at h
  | cons p rest ih =>
    unfold firstMatchVariant at h
    rw [find?_cons_eq (fun pr : Product =>
      pr.id == pid && pr.variants.any (·.matchKey size colorName)) p rest] at h
    by_cases hp : (p.id == pid && p.variants.any (·.matchKey size colorName)) = true
    · rw [if_pos hp] at h
      simp only [Option.some_bind] at h
      have hcond : p.id = pid ∧ p.variants.any (·.matchKey size colorName) = true := by
        simpa [Bool.and_eq_true, beq_iff_eq] using hp
      unfold adjustStock
      rw [if_pos hcond]
      have hfind2 := find?_adjustVariants p.variants size colorName q v h
      have hp2 : (({ p with variants := adjustVariants p.variants size colorName q} : Product).id == pid
          && (adjustVariants p.variants size colorName q).any (·.matchKey size colorName)) = true := by
        simp only [Bool.and_eq_true, beq_iff_eq]
        exact ⟨hcond.1, any_of_find?_some hfind2⟩
      unfold firstMatchVariant
      rw [find?_cons_eq (fun pr : Product =>
        pr.id == pid && pr.variants.any (·.matchKey size colorName))]
      rw [if_pos hp2]
      simpa using hfind2
    · rw [if_neg hp] at h
      have hcond : ¬(p.id = pid ∧ p.variants.any (·.matchKey size colorName) = true) := by
        intro hc
        exact hp (by simp [Bool.and_eq_true, beq_iff_eq, hc.1, hc.2])
      unfold adjustStock
      rw [if_neg hcond]
      unfold firstMatchVariant
      rw [find?_cons_eq (fun pr : Product =>
        pr.id == pid && pr.variants.any (·.matchKey size colorName))]
      rw [if_neg hp]
      exact ih h

/-- **C5.** Cancel succeeds only while `isPaid = false`, and on success
only sets `isCancelled := true` on the order, touching no stock; once
`isPaid = true` Cancel is rejected and the database is unchanged.  Delete
of a paid, non-cancelled order restocks — the products become one bulk
increment by each order item's quantity, and each increment raises the
first matching variant's stock by exactly that quantity — before removing
the order; Delete of an unpaid or cancelled order removes the order with
no stock change. -/
theorem cancel_delete_semantics :
    (∀ (caller : Nat) (db db1 : DB) (oid : Nat),
        cancelOrder caller db oid = (CancelRes.ok, db1) →
        ∃ o, findOrder db.orders oid = some o ∧ o.isPaid = false ∧
          db1.orders = setOrder db.orders oid { o with isCancelled := true } ∧
          db1.products = db.products)
    ∧ (∀ (caller : Nat) (db : DB) (oid : Nat) (o : Order),
        findOrder db.orders oid = some o → o.isPaid = true →
        (cancelOrder caller db oid).1 ≠ CancelRes.ok ∧ (cancelOrder caller db oid).2 = db)
    ∧ (∀ (db : DB) (oid : Nat) (o : Order),
        findOrder db.orders oid = some o → o.isPaid = true → o.isCancelled = false →
        deleteOrder db oid =
          (DeleteRes.deleted,
           ⟨removeOrder db.orders oid, (bulkAdjust db.products o.orderItems 1).1⟩))
    ∧ (∀ (db : DB) (oid : Nat) (o : Order),
        findOrder db.orders oid = some o → (o.isPaid = false ∨ o.isCancelled = true) →
        deleteOrder db oid =
          (DeleteRes.deleted, ⟨removeOrder db.orders oid, db.products⟩))
    ∧ (∀ (products : List Product) (pid : Nat) (size colorName : String)
        (q : Int) (v : Variant),
        firstMatchVariant products pid size colorName = some v →
        firstMatchVariant (adjustStock products pid size colorName q).1 pid size colorName =
          some { v with stock := v.stock + q }) := by
  refine ⟨?_, ?_, ?_, ?_, firstMatchVariant_adjustStock⟩
  · intro caller db db1 oid h
    unfold cancelOrder at h
    cases hfind : findOrder db.orders oid with
    | none => rw [hfind] at h; simp at h
    | some o =>
      rw [hfind] at h
      simp only at h
      by_cases hu : o.user ≠ caller
      · simp [hu] at h
      · rw [if_neg hu] at h
        by_cases hp : o.isPaid = true
        · simp [hp] at h
        · rw [if_neg hp] at h
          simp only [Prod.mk.injEq] at h
          exact ⟨o, rfl, by simpa using hp, by rw [← h.2], by rw [← h.2]⟩
  · intro caller db oid o hfind hpaid
    unfold cancelOrder
    rw [hfind]
    simp only
    by_cases hu : o.user ≠ caller
    · simp [hu]
    · rw [if_neg hu, if_pos hpaid]
      exact ⟨by simp, rfl⟩
  · intro db oid o hfind hpaid hnc
    unfold deleteOrder
    rw [hfind]
    simp [hpaid, hnc]
  · intro db oid o hfind hdisj
    unfold deleteOrder
    rw [hfind]
    have : ¬(o.isPaid = true ∧ o.isCancelled = false) := by
      rcases hdisj with h1 | h1 <;> simp [h1]
    simp only [this, if_false]

/-- **C5 witness.**  Concrete checks: cancelling the unpaid `demoOrder`
succeeds and leaves the products untouched, a paid order cannot be
cancelled, deleting the paid non-cancelled order in `demoDB2` restores
stock 1 → 3 for the ordered variant, and deleting the unpaid order in
`demoDB` changes no stock. -/
theorem cancel_delete_semantics_witness :
    ((cancelOrder 1 demoDB 1).1 ≠ CancelRes.ok ∨ (cancelOrder 1 demoDB 1).2.products = demoDB.products)
    ∧ (cancelOrder 1 demoDB2 1).1 ≠ CancelRes.ok
    ∧ deleteOrder demoDB2 1 =
        (DeleteRes.deleted,
         ⟨removeOrder demoDB2.orders 1, (bulkAdjust demoDB2.products demoOrder.orderItems 1).1⟩)
    ∧ deleteOrder demoDB 1 = (DeleteRes.deleted, ⟨removeOrder demoDB.orders 1, demoDB.products⟩) := by
  refine ⟨?_, ?_, ?_, ?_⟩
  · rcases hc : cancelOrder 1 demoDB 1 with ⟨r, db1⟩
    by_cases hr : r = CancelRes.ok
    · subst hr
      obtain ⟨o, -, -, -, hprod⟩ := cancel_delete_semantics.1 1 demoDB db1 1 hc
      exact Or.inr hprod
    · exact Or.inl hr
  · have hfind : findOrder demoDB2.orders 1 =
        some { demoOrder with
          isPaid := true, paidAt := some 0,
          paymentDetails := ⟨some "rzp_o", some "pay_1", some "SIG", some "card"⟩ } := by decide
    exact (cancel_delete_semantics.2.1 1 demoDB2 1 _ hfind (by decide)).1
  · have hfind : findOrder demoDB2.orders 1 =
        some { demoOrder with
          isPaid := true, paidAt := some 0,
          paymentDetails := ⟨some "rzp_o", some "pay_1", some "SIG", some "card"⟩ } := by decide
    have h := cancel_delete_semantics.2.2.1 demoDB2 1 _ hfind (by decide) (by decide)
    simpa using h
  · exact cancel_delete_semantics.2.2.2.1 demoDB 1 demoOrder (by decide) (Or.inl (by decide))

end VW
